import Mathlib

/-!
retryableFetchApi: cancellation token and retry controller.

A shallow embedding of `src/src.js`.

* `CancellationToken` (lines 4-31) is a record with the two fields of the
  JavaScript object; `cancel` returns the updated token together with the
  listener invocations it performs, in order.
* `RetryablePromise` (lines 47-117) is a record holding the fields of `self`
  plus the part of the environment the closures act on: the state of the
  returned `Promise`, the number of factory invocations, the attempts in
  flight, the pending `setTimeout(runOnce, delay)` timers and the calls made
  to `onError` and to listeners of the token that belong to other parties.
* The event loop is the function `step` over `Event`: the reaction to an
  attempt that resolved, to an attempt that rejected, a delay timer firing,
  and a call of `cancel` on the token by its holder.
* One attempt of `retryFetch` (lines 154-178) is the function `fetchAttempt`
  of the response `fetch` resolved with; `JSON.parse` and the reading of the
  `Message` property are parameters.

Modelling assumptions: attempt errors are objects (so `error.resumable` can be
read), `onError` and foreign listeners do not throw, the factory returns a
promise, neither the factory nor `onError` calls back into the token, and
`maxTries` is a natural number.
The `onError` callback may modify the error object it receives: `onRejectedWith`,
`stepWith` and `stepsWith` take what it does as a parameter, and `onRejected`,
`step` and `steps` are the case of a callback that leaves the error alone.
-/

namespace RetryableFetch

/-! ## Values -/

/-- Values a factory promise resolves with. -/
abbrev Val := String

/-- An error produced by one attempt. `resumable` is the JavaScript property
of that name: `none` when the property is absent. -/
structure Err where
  message : String
  resumable : Option Bool
deriving DecidableEq, Repr

/-- The test `error.resumable === false` of line 82. -/
def Err.nonResumable (e : Err) : Bool :=
  e.resumable == some false

/-- What `stop` can receive as `reason`: a string (a cancellation reason or
the literal `'max tries'`) or the error object passed on line 83. -/
inductive Reason where
  | str (s : String)
  | err (e : Err)
deriving DecidableEq, Repr

/-- JavaScript truthiness of a `Reason`: a string is truthy unless empty, an
object always is. -/
def Reason.truthy : Reason → Bool
  | .str s => s != ""
  | .err _ => true

/-! ## CancellationToken (lines 4-31) -/

/-- A callback registered on a token. `retryStop` is the closure
`function(reason){ return stop(reason); }` of lines 93-95; `other` is any
callback registered by another party. -/
inductive Listener where
  | retryStop
  | other (id : Nat)
deriving DecidableEq, Repr

/-- The object built by `CancellationToken()`: `cancelled` is `''` until a
cancellation. -/
structure CancellationToken where
  cancelled : String
  listeners : List Listener
deriving DecidableEq, Repr

/-- The constructor, lines 4-7. -/
def CancellationToken.fresh : CancellationToken :=
  { cancelled := "", listeners := [] }

/-- Lines 9-11. -/
def CancellationToken.isCancelled (t : CancellationToken) : Bool :=
  t.cancelled != ""

/-- The expression `reason || 'cancelled'` of line 14; `none` is an omitted
argument. -/
def cancelReason : Option String → String
  | none => "cancelled"
  | some r => if r != "" then r else "cancelled"

/-- Lines 13-20: stores the reason unconditionally, then calls every listener
in index order with the stored reason. The second component is the sequence
of calls made. -/
def CancellationToken.cancel (t : CancellationToken) (reason : Option String) :
    CancellationToken × List (Listener × String) :=
  let c := cancelReason reason
  ({ t with cancelled := c }, t.listeners.map (fun l => (l, c)))

/-- Lines 29-31: appends the callback and returns the new length. -/
def CancellationToken.onCancelled (t : CancellationToken) (callback : Listener) :
    CancellationToken × Nat :=
  ({ t with listeners := t.listeners ++ [callback] }, t.listeners.length + 1)

/-- The function scheduled by `timeoutAfter` (lines 24-26), run when its
timer fires. -/
def CancellationToken.timeoutFired (t : CancellationToken) :
    CancellationToken × List (Listener × String) :=
  t.cancel (some "timeout")

/-! ## RetryException and the returned promise -/

/-- The object built on line 69. Its `errors` field is the array `self.errors`
itself (line 39 stores the reference, not a copy), so its content is read
from the controller with `deliveredErrors`. -/
structure RetryException where
  name : String
  reason : Reason
deriving DecidableEq, Repr

/-- How the promise returned on line 114 has settled. -/
inductive Outcome where
  | resolved (v : Val)
  | rejected (ex : RetryException)
deriving DecidableEq, Repr

/-- The `options` argument; a field is `none` when the property is absent. -/
structure Options where
  maxTries : Option Nat
  delay : Option Int
  onError : Bool
deriving DecidableEq, Repr

/-- The fields of `self` (lines 54-63) followed by the environment. -/
structure RetryablePromise where
  maxTries : Nat
  delay : Int
  onError : Bool
  cancellationToken : Option CancellationToken
  currentRetry : Nat
  errors : List Err
  isStarted : Bool
  /-- State of the returned promise: `none` while pending. -/
  outcome : Option Outcome
  /-- Number of calls of `promiseFactory` so far. -/
  invocations : Nat
  /-- Attempts whose promise has not been reacted to yet. -/
  inFlight : Nat
  /-- Pending `setTimeout(runOnce, self.delay)` timers. -/
  timers : Nat
  /-- Arguments of the calls of `onError`, oldest first. -/
  onErrorCalls : List Err
  /-- Calls received by listeners of other parties, oldest first. -/
  listenerCalls : List (Nat × String)
deriving DecidableEq, Repr

/-- Content of the `errors` array an already built `RetryException` points
to: the controller's own array. -/
def deliveredErrors (s : RetryablePromise) : List Err :=
  s.errors

/-- The functions `resolve` and `reject` of a promise: only the first call
has an effect. -/
def settle (o : Outcome) (s : RetryablePromise) : RetryablePromise :=
  match s.outcome with
  | some _ => s
  | none => { s with outcome := some o }

/-- Lines 67-70. -/
def stop (reason : Reason) (s : RetryablePromise) : RetryablePromise :=
  let s1 := { s with currentRetry := s.maxTries }
  settle (.rejected { name := "RetryException",
                      reason := if reason.truthy then reason else .str "errors" }) s1

/-- Lines 72-88, up to the call of the factory; the two reactions are
`onResolved` and `onRejected`. -/
def runOnce (s : RetryablePromise) : RetryablePromise :=
  let s1 := { s with currentRetry := s.currentRetry + 1 }
  if s1.currentRetry ≤ s1.maxTries then
    { s1 with invocations := s1.invocations + 1, inFlight := s1.inFlight + 1 }
  else s1

/-- Lines 90-98. -/
def start (s : RetryablePromise) : RetryablePromise :=
  let s1 := { s with isStarted := true }
  let s2 :=
    match s1.cancellationToken with
    | some t => { s1 with cancellationToken := some (t.onCancelled .retryStop).1 }
    | none => s1
  runOnce s2

/-- Lines 65-112. -/
def run (s : RetryablePromise) : RetryablePromise :=
  if !s.isStarted then start s
  else if s.currentRetry ≥ s.maxTries then stop (.str "max tries") s
  else if s.delay ≥ 0 then { s with timers := s.timers + 1 }
  else runOnce s

/-- Lines 76-78: the reaction to an attempt that resolved. -/
def onResolved (result : Val) (s : RetryablePromise) : RetryablePromise :=
  settle (.resolved result) s

/-- Lines 78-86: the reaction to an attempt that rejected. `effect` is what
the configured `onError` callback does to the error object it is handed on
line 81: the object is the one already pushed on line 80 and the one tested on
line 82, so `errors`, the test and `stop` all see it as the callback left it.
`effect` is not used when no callback is configured. `onErrorCalls` records
the error as the callback received it. -/
def onRejectedWith (effect : Err → Err) (error : Err) (s : RetryablePromise) :
    RetryablePromise :=
  let seen := if s.onError then effect error else error
  let s1 := { s with errors := s.errors ++ [seen] }
  let s2 := if s1.onError then { s1 with onErrorCalls := s1.onErrorCalls ++ [error] } else s1
  if seen.nonResumable then stop (.err seen) s2
  else run s2

/-- Lines 78-86 when the `onError` callback, if there is one, only observes
the error and leaves the object as it is. -/
def onRejected (error : Err) (s : RetryablePromise) : RetryablePromise :=
  onRejectedWith id error s

/-- The value of `options.maxTries || 3` (lines 55-56). -/
def maxTriesOf (options : Option Options) : Nat :=
  match options.bind (·.maxTries) with
  | some n => if n ≠ 0 then n else 3
  | none => 3

/-- The value of `options.delay || -1` (lines 55, 57). -/
def delayOf (options : Option Options) : Int :=
  match options.bind (·.delay) with
  | some d => if d ≠ 0 then d else -1
  | none => -1

/-- The value of `options.onError` (line 58), as the truth value tested on
line 81. -/
def onErrorOf (options : Option Options) : Bool :=
  match options with
  | some o => o.onError
  | none => false

/-- Lines 54-63: the fields of `self` before `run` is called, with the
returned promise pending and nothing scheduled. -/
def initial (options : Option Options) (cancellationToken : Option CancellationToken) :
    RetryablePromise :=
  { maxTries := maxTriesOf options
    delay := delayOf options
    onError := onErrorOf options
    cancellationToken := cancellationToken
    currentRetry := 0
    errors := []
    isStarted := false
    outcome := none
    invocations := 0
    inFlight := 0
    timers := 0
    onErrorCalls := []
    listenerCalls := [] }

/-- Lines 114-116: the promise executor calls `self.run` at once, so this is
the controller as the caller first sees it. -/
def launch (options : Option Options) (cancellationToken : Option CancellationToken) :
    RetryablePromise :=
  run (initial options cancellationToken)

/-- What a call of the constructor leaves behind: what it returned or threw,
the caller's token object after the call, and the number of calls of the
factory made during the call. -/
structure Construction where
  result : Except String RetryablePromise
  token : Option CancellationToken
  factoryCalls : Nat

/-- Lines 47-117 in source order; `promiseFactory` is `true` when a factory
was passed. The check of lines 48-50 comes first and throws with the token
untouched and no factory call made; only past it are the fields set and
`self.run` called by the promise executor, which registers the listener on the
token and makes the first factory call. -/
def construct (promiseFactory : Bool) (options : Option Options)
    (cancellationToken : Option CancellationToken) : Construction :=
  if !promiseFactory then
    { result := .error "missing promiseFactory", token := cancellationToken, factoryCalls := 0 }
  else
    { result := .ok (launch options cancellationToken)
      token := (launch options cancellationToken).cancellationToken
      factoryCalls := (launch options cancellationToken).invocations }

/-- What `new RetryablePromise(...)` returns or throws. -/
def newRetryablePromise (promiseFactory : Bool) (options : Option Options)
    (cancellationToken : Option CancellationToken) : Except String RetryablePromise :=
  (construct promiseFactory options cancellationToken).result

/-! ## The event loop -/

/-- One call made by `cancel` to a listener. -/
def deliver (s : RetryablePromise) : Listener × String → RetryablePromise
  | (.retryStop, r) => stop (.str r) s
  | (.other id, r) => { s with listenerCalls := s.listenerCalls ++ [(id, r)] }

/-- A call `token.cancel(reason)` by a holder of the controller's token. -/
def cancelToken (reason : Option String) (s : RetryablePromise) : RetryablePromise :=
  match s.cancellationToken with
  | none => s
  | some t =>
    let r := t.cancel reason
    r.2.foldl deliver { s with cancellationToken := some r.1 }

/-- What the scheduler can run next. -/
inductive Event where
  | attemptOk (v : Val)
  | attemptFail (e : Err)
  | timerFire
  | cancel (reason : Option String)
deriving DecidableEq, Repr

/-- One turn of the event loop, with `effect` what the `onError` callback does
to the error it is handed. An event with nothing to act on (no attempt in
flight, no timer pending) leaves the state as it is. -/
def stepWith (effect : Err → Err) (s : RetryablePromise) : Event → RetryablePromise
  | .attemptOk v =>
    if s.inFlight = 0 then s else onResolved v { s with inFlight := s.inFlight - 1 }
  | .attemptFail e =>
    if s.inFlight = 0 then s else onRejectedWith effect e { s with inFlight := s.inFlight - 1 }
  | .timerFire =>
    if s.timers = 0 then s else runOnce { s with timers := s.timers - 1 }
  | .cancel r => cancelToken r s

/-- A sequence of turns, with `effect` what the `onError` callback does. -/
def stepsWith (effect : Err → Err) (s : RetryablePromise) (evs : List Event) :
    RetryablePromise :=
  evs.foldl (stepWith effect) s

/-- One turn of the event loop when the `onError` callback, if there is one,
only observes the error. An event with nothing to act on (no attempt in
flight, no timer pending) leaves the state as it is. -/
def step (s : RetryablePromise) : Event → RetryablePromise
  | .attemptOk v =>
    if s.inFlight = 0 then s else onResolved v { s with inFlight := s.inFlight - 1 }
  | .attemptFail e =>
    if s.inFlight = 0 then s else onRejected e { s with inFlight := s.inFlight - 1 }
  | .timerFire =>
    if s.timers = 0 then s else runOnce { s with timers := s.timers - 1 }
  | .cancel r => cancelToken r s

/-- A sequence of turns. -/
def steps (s : RetryablePromise) (evs : List Event) : RetryablePromise :=
  evs.foldl step s

/-! ## Runs without cancellation, driven by a factory -/

/-- Result of one attempt. -/
inductive AttemptResult where
  | ok (v : Val)
  | fail (e : Err)
deriving DecidableEq, Repr

/-- A factory: the result of its `k`-th call, counted from 1. -/
abbrev Factory := Nat → AttemptResult

/-- The only thing the scheduler can run when nobody cancels: the reaction to
the attempt in flight, else a pending delay timer. -/
def nextEvent (factory : Factory) (s : RetryablePromise) : Option Event :=
  if s.inFlight ≠ 0 then
    match factory s.invocations with
    | .ok v => some (.attemptOk v)
    | .fail e => some (.attemptFail e)
  else if s.timers ≠ 0 then some .timerFire
  else none

/-- Runs the event loop for at most `fuel` turns, stopping when nothing is
pending. -/
def drive (factory : Factory) : Nat → RetryablePromise → RetryablePromise
  | 0, s => s
  | fuel + 1, s =>
    match nextEvent factory s with
    | none => s
    | some ev => drive factory fuel (step s ev)

/-- Nothing is pending: no attempt in flight and no timer. -/
def quiescent (s : RetryablePromise) : Bool :=
  s.inFlight == 0 && s.timers == 0

/-! ## Predicates used in the statements -/

/-- The controller is waiting for the reaction to attempt `k` of at most `N`. -/
structure AtAttempt (N k : Nat) (s : RetryablePromise) : Prop where
  started : s.isStarted = true
  limit : s.maxTries = N
  retry : s.currentRetry = k
  calls : s.invocations = k
  flight : s.inFlight = 1
  noTimer : s.timers = 0
  pending : s.outcome = none

/-- The error of an attempt result, if it failed. -/
def AttemptResult.error? : AttemptResult → Option Err
  | .ok _ => none
  | .fail e => some e

/-- Errors of the attempts `lo, lo+1, ..., lo+n-1` of a factory, in order. -/
def failuresFrom (factory : Factory) (lo n : Nat) : List Err :=
  (List.range' lo n).filterMap (fun k => (factory k).error?)

/-- Attempt `k` of the factory fails with an error that is not marked
`resumable === false`. -/
def failsResumably (factory : Factory) (k : Nat) : Prop :=
  ∃ e, factory k = .fail e ∧ e.nonResumable = false

/-- What holds of every state a constructed controller can reach. -/
structure Inv (s : RetryablePromise) : Prop where
  started : s.isStarted = true
  single : s.inFlight + s.timers ≤ 1
  settled : s.outcome ≠ none → s.maxTries ≤ s.currentRetry ∨ (s.inFlight = 0 ∧ s.timers = 0)

/-- The part of the state that is fixed once the promise has settled. -/
def Frozen (o : Outcome) (n : Nat) (s : RetryablePromise) : Prop :=
  Inv s ∧ s.outcome = some o ∧ s.invocations = n

/-- The fields a call of `cancel` leaves alone. -/
def sameAttempts (s s' : RetryablePromise) : Prop :=
  s'.maxTries = s.maxTries ∧ s'.delay = s.delay ∧ s'.onError = s.onError ∧
  s'.errors = s.errors ∧ s'.isStarted = s.isStarted ∧ s'.invocations = s.invocations ∧
  s'.inFlight = s.inFlight ∧ s'.timers = s.timers ∧ s'.onErrorCalls = s.onErrorCalls

/-- The controller's `stop` closure is registered on its token. -/
def Listening (s : RetryablePromise) : Prop :=
  ∃ t, s.cancellationToken = some t ∧ Listener.retryStop ∈ t.listeners

/-! ## Traces, further invariants -/

/-- Registers the callbacks `ls` on `t` with `onCancelled`, first to last. -/
def registerAll (t : CancellationToken) (ls : List Listener) : CancellationToken :=
  ls.foldl (fun acc l => (acc.onCancelled l).1) t

/-- Errors of the attempts that failed while the events `evs` ran from state
`s`, in the order of the attempts. A failure event stands for a failed attempt
when an attempt is in flight. -/
def failuresOf (s : RetryablePromise) : List Event → List Err
  | [] => []
  | .attemptFail e :: evs =>
    (if s.inFlight = 0 then [] else [e]) ++ failuresOf (step s (.attemptFail e)) evs
  | .attemptOk v :: evs => failuresOf (step s (.attemptOk v)) evs
  | .timerFire :: evs => failuresOf (step s .timerFire) evs
  | .cancel r :: evs => failuresOf (step s (.cancel r)) evs

/-- The same as `failuresOf` along a run whose `onError` callback does
`effect`: the errors as the attempts produced them. -/
def failuresOfWith (effect : Err → Err) (s : RetryablePromise) : List Event → List Err
  | [] => []
  | .attemptFail e :: evs =>
    (if s.inFlight = 0 then [] else [e]) ++
      failuresOfWith effect (stepWith effect s (.attemptFail e)) evs
  | .attemptOk v :: evs => failuresOfWith effect (stepWith effect s (.attemptOk v)) evs
  | .timerFire :: evs => failuresOfWith effect (stepWith effect s .timerFire) evs
  | .cancel r :: evs => failuresOfWith effect (stepWith effect s (.cancel r)) evs

/-- The factory has been called at most `currentRetry` and at most `maxTries`
times. -/
def Bounded (s : RetryablePromise) : Prop :=
  s.invocations ≤ s.currentRetry ∧ s.invocations ≤ s.maxTries

/-- The state with the `onError` option and the record of its calls removed. -/
def withoutOnError (s : RetryablePromise) : RetryablePromise :=
  { s with onError := false, onErrorCalls := [] }

/-! ## retryFetch (lines 131-178) -/

/-- A value produced by `JSON.parse`; only `null` has to be told apart from
the other values. -/
inductive Json where
  | null
  | value (source : String)
deriving DecidableEq, Repr

/-- The part of a `fetch` response that `retryFetch` reads. -/
structure Response where
  status : Nat
  statusText : String
  text : String
deriving DecidableEq, Repr

/-- The `fetchOptions` argument. `validationCallBack` is `none` when the
property is absent; applied to the parsed body it gives `false` exactly when
`validationCallBack(jsonData) == false` holds. -/
structure FetchOptions where
  validationCallBack : Option (Json → Bool)
  validationError : String

/-- Lines 138-144. `parse` stands for `JSON.parse`: `none` when it throws. -/
def jsonConverter (parse : String → Option Json) (text : String) : Json :=
  match parse text with
  | some j => j
  | none => .null

/-- Lines 146-152. `messageOf` reads the property `Message` of a parsed value:
`none` when it is absent or falsy. -/
def errorMesage (parse : String → Option Json) (messageOf : Json → Option String)
    (text : String) : String :=
  match jsonConverter parse text with
  | .null => text
  | j =>
    match messageOf j with
    | some m => m
    | none => text

/-- Lines 157-176: what one attempt of `retryFetch` settles with once `fetch`
has resolved with `response`. The error's `response` property is not
represented. -/
def fetchAttempt (parse : String → Option Json) (messageOf : Json → Option String)
    (fetchOptions : Option FetchOptions) (response : Response) : Except Err Json :=
  if 200 ≤ response.status ∧ response.status < 300 then
    let jsonData := jsonConverter parse response.text
    match fetchOptions with
    | none => .ok jsonData
    | some o =>
      match o.validationCallBack with
      | none => .ok jsonData
      | some cb =>
        if cb jsonData = false then .error { message := o.validationError, resumable := none }
        else .ok jsonData
  else
    let m := errorMesage parse messageOf response.text
    .error { message := if m ≠ "" then m else response.statusText
             resumable := if response.status ≥ 400 then some false else none }

/-- The validation of line 172 lets the parsed body through: there is no
callback, or the callback does not return `false`. -/
def validationAccepts (fetchOptions : Option FetchOptions) (jsonData : Json) : Prop :=
  ∀ o cb, fetchOptions = some o → o.validationCallBack = some cb → cb jsonData = true

/-! ## Lemmas on single turns and on driven runs -/

theorem drive_quiescent (factory : Factory) (fuel : Nat) (s : RetryablePromise)
    (h : quiescent s = true) : drive factory fuel s = s := by
  simp only [quiescent, Bool.and_eq_true, beq_iff_eq] at h
  cases fuel with
  | zero => rfl
  | succ n => simp [drive, nextEvent, h.1, h.2]

theorem step_fail_timer {s : RetryablePromise} {e : Err} (h1 : s.isStarted = true)
    (h5 : s.inFlight = 1) (hlt : s.currentRetry < s.maxTries) (he : e.nonResumable = false)
    (hd : s.delay ≥ 0) :
    step s (.attemptFail e) =
      { s with inFlight := 0, errors := s.errors ++ [e], timers := s.timers + 1,
               onErrorCalls := if s.onError then s.onErrorCalls ++ [e] else s.onErrorCalls } := by
  have hlt2 : ¬ (s.maxTries ≤ s.currentRetry) := by omega
  cases hoe : s.onError <;> simp [step, onRejected, onRejectedWith, run, h1, h5, he, hd, hlt2, hoe]

theorem step_fail_direct {s : RetryablePromise} {e : Err} (h1 : s.isStarted = true)
    (h5 : s.inFlight = 1) (hlt : s.currentRetry < s.maxTries) (he : e.nonResumable = false)
    (hd : ¬ s.delay ≥ 0) :
    step s (.attemptFail e) =
      { s with inFlight := 1, errors := s.errors ++ [e], currentRetry := s.currentRetry + 1,
               invocations := s.invocations + 1,
               onErrorCalls := if s.onError then s.onErrorCalls ++ [e] else s.onErrorCalls } := by
  have hlt2 : ¬ (s.maxTries ≤ s.currentRetry) := by omega
  have hlt3 : s.currentRetry + 1 ≤ s.maxTries := by omega
  cases hoe : s.onError <;> simp [step, onRejected, onRejectedWith, run, runOnce, h1, h5, he, hd, hlt2, hlt3, hoe]

theorem step_timer {s : RetryablePromise} (h6 : s.timers = 1) (hlt : s.currentRetry < s.maxTries) :
    step s .timerFire =
      { s with timers := 0, currentRetry := s.currentRetry + 1,
               invocations := s.invocations + 1, inFlight := s.inFlight + 1 } := by
  have hlt3 : s.currentRetry + 1 ≤ s.maxTries := by omega
  simp [step, runOnce, h6, hlt3]

theorem drive_fail_resumable {factory : Factory} {N k : Nat} {s : RetryablePromise} {e : Err}
    (h : AtAttempt N k s) (hk : k < N) (hf : factory k = .fail e)
    (he : e.nonResumable = false) :
    ∃ s' j, AtAttempt N (k + 1) s' ∧ s'.errors = s.errors ++ [e] ∧ j ≤ 2 ∧
      ∀ f, drive factory (j + f) s = drive factory f s' := by
  obtain ⟨h1, h2, h3, h4, h5, h6, h7⟩ := h
  have hev : nextEvent factory s = some (.attemptFail e) := by
    simp [nextEvent, h5, h4, hf]
  have hlt : s.currentRetry < s.maxTries := by omega
  by_cases hd : s.delay ≥ 0
  · have e1 := step_fail_timer h1 h5 hlt he hd
    have e2 : step (step s (.attemptFail e)) .timerFire = _ :=
      step_timer (by rw [e1]; simp [h6]) (by rw [e1]; exact hlt)
    have hev2 : nextEvent factory (step s (.attemptFail e)) = some .timerFire := by
      rw [e1]; simp [nextEvent]
    refine ⟨step (step s (.attemptFail e)) .timerFire, 2, ?_, ?_, le_refl _, ?_⟩
    · rw [e2, e1]
      constructor <;> simp [h1, h2, h3, h4, h7]
    · rw [e2, e1]
    · intro f
      rw [show 2 + f = (f + 1) + 1 by omega, drive, hev]
      simp only []
      rw [drive, hev2]
  · have e1 := step_fail_direct h1 h5 hlt he hd
    refine ⟨step s (.attemptFail e), 1, ?_, ?_, by omega, ?_⟩
    · rw [e1]
      constructor <;> simp [h1, h2, h3, h4, h6, h7]
    · rw [e1]
    · intro f
      rw [show 1 + f = f + 1 by omega, drive, hev]

theorem failuresFrom_succ (factory : Factory) (lo n : Nat) :
    failuresFrom factory lo (n + 1) =
      failuresFrom factory lo n ++ ((factory (lo + n)).error?).toList := by
  simp only [failuresFrom, List.range'_concat, List.filterMap_append, Nat.one_mul]
  cases h : (factory (lo + n)).error? <;> simp [List.filterMap_cons, h]

theorem drive_failures {factory : Factory} {N : Nat} (m : Nat) :
    ∀ {k : Nat} {s : RetryablePromise}, AtAttempt N k s → k + m ≤ N →
      (∀ i, k ≤ i → i < k + m → failsResumably factory i) →
      ∃ s' j, AtAttempt N (k + m) s' ∧ s'.errors = s.errors ++ failuresFrom factory k m ∧
        j ≤ 2 * m ∧ ∀ f, drive factory (j + f) s = drive factory f s' := by
  induction m with
  | zero =>
    intro k s h _ _
    exact ⟨s, 0, h, by simp [failuresFrom], le_refl _, fun f => by simp⟩
  | succ m ih =>
    intro k s h hk hall
    obtain ⟨s1, j1, a1, er1, hj1, d1⟩ :=
      ih h (by omega) (fun i hi hi2 => hall i hi (by omega))
    obtain ⟨e, hf, he⟩ := hall (k + m) (by omega) (by omega)
    obtain ⟨s2, j2, a2, er2, hj2, d2⟩ := drive_fail_resumable a1 (by omega) hf he
    refine ⟨s2, j1 + j2, a2, ?_, by omega, ?_⟩
    · rw [er2, er1, failuresFrom_succ, hf]
      simp [AttemptResult.error?]
    · intro f
      rw [show j1 + j2 + f = j1 + (j2 + f) by omega, d1, d2]

theorem step_fail_last {s : RetryablePromise} {e : Err} (h1 : s.isStarted = true)
    (h5 : s.inFlight = 1) (h7 : s.outcome = none) (hge : s.maxTries ≤ s.currentRetry)
    (he : e.nonResumable = false) :
    step s (.attemptFail e) =
      { s with inFlight := 0, errors := s.errors ++ [e], currentRetry := s.maxTries,
               outcome := some (.rejected { name := "RetryException",
                                            reason := .str "max tries" }),
               onErrorCalls := if s.onError then s.onErrorCalls ++ [e] else s.onErrorCalls } := by
  cases hoe : s.onError <;>
    simp [step, onRejected, onRejectedWith, run, stop, settle, Reason.truthy, h1, h5, h7, he, hge, hoe]

theorem step_fail_fatal {s : RetryablePromise} {e : Err}
    (h5 : s.inFlight = 1) (h7 : s.outcome = none) (he : e.nonResumable = true) :
    step s (.attemptFail e) =
      { s with inFlight := 0, errors := s.errors ++ [e], currentRetry := s.maxTries,
               outcome := some (.rejected { name := "RetryException", reason := .err e }),
               onErrorCalls := if s.onError then s.onErrorCalls ++ [e] else s.onErrorCalls } := by
  cases hoe : s.onError <;>
    simp [step, onRejected, onRejectedWith, stop, settle, Reason.truthy, h5, h7, he, hoe]

theorem step_ok {s : RetryablePromise} {v : Val} (h5 : s.inFlight = 1) (h7 : s.outcome = none) :
    step s (.attemptOk v) = { s with inFlight := 0, outcome := some (.resolved v) } := by
  simp [step, onResolved, settle, h5, h7]

theorem newRetryablePromise_ok (options : Option Options) (token : Option CancellationToken) :
    ∃ s0, newRetryablePromise true options token = .ok s0 ∧
      AtAttempt (maxTriesOf options) 1 s0 ∧ s0.errors = [] := by
  have hpos : 1 ≤ maxTriesOf options := by
    unfold maxTriesOf
    split
    · split <;> omega
    · omega
  refine ⟨_, rfl, ?_, ?_⟩
  · cases token <;> constructor <;> simp [launch, initial, run, start, runOnce, hpos]
  · cases token <;> simp [launch, initial, run, start, runOnce, hpos]

theorem maxTriesOf_some (N : Nat) (hN : 1 ≤ N) (delay : Option Int) (onError : Bool) :
    maxTriesOf (some { maxTries := some N, delay := delay, onError := onError }) = N := by
  have : N ≠ 0 := by omega
  simp [maxTriesOf, this]

/-- A controller whose first `K - 1` attempts fail resumably reaches attempt `K`. -/
theorem reaches_attempt {factory : Factory} {N K : Nat} (hK1 : 1 ≤ K) (hKN : K ≤ N)
    (options : Option Options) (token : Option CancellationToken)
    (hN : maxTriesOf options = N)
    (hfail : ∀ i, 1 ≤ i → i < K → failsResumably factory i) :
    ∃ s0 s j, newRetryablePromise true options token = .ok s0 ∧ AtAttempt N K s ∧
      s.errors = failuresFrom factory 1 (K - 1) ∧ j + 2 ≤ 2 * K ∧
      ∀ f, drive factory (j + f) s0 = drive factory f s := by
  obtain ⟨s0, h0, a0, e0⟩ := newRetryablePromise_ok options token
  rw [hN] at a0
  obtain ⟨s, j, a, er, hj, d⟩ := drive_failures (K - 1) a0 (by omega)
    (fun i hi hi2 => hfail i hi (by omega))
  refine ⟨s0, s, j, h0, ?_, ?_, by omega, d⟩
  · rw [show 1 + (K - 1) = K by omega] at a; exact a
  · rw [er, e0]; rfl

theorem drive_last {factory : Factory} {s0 s : RetryablePromise} {j : Nat} {ev : Event}
    (d : ∀ f, drive factory (j + f) s0 = drive factory f s)
    (hev : nextEvent factory s = some ev) (hq : quiescent (step s ev) = true) :
    ∀ fuel, j + 1 ≤ fuel → drive factory fuel s0 = step s ev := by
  intro fuel hfuel
  rw [show fuel = j + ((fuel - j - 1) + 1) by omega, d, drive, hev]
  exact drive_quiescent factory _ _ hq

theorem nextEvent_atAttempt {factory : Factory} {N k : Nat} {s : RetryablePromise}
    (h : AtAttempt N k s) :
    nextEvent factory s =
      some (match factory k with
            | .ok v => .attemptOk v
            | .fail e => .attemptFail e) := by
  simp only [nextEvent, h.flight, h.calls]
  cases factory k <;> simp

/-- Every attempt up to `maxTries` fails resumably: the final state. -/
theorem run_exhausted {factory : Factory} {N : Nat}
    (options : Option Options) (token : Option CancellationToken)
    (hN : maxTriesOf options = N)
    (hfail : ∀ i, 1 ≤ i → i ≤ N → failsResumably factory i) :
    ∃ s0, newRetryablePromise true options token = .ok s0 ∧
      ∀ fuel, 2 * N ≤ fuel →
        (drive factory fuel s0).invocations = N ∧
        (drive factory fuel s0).outcome =
          some (.rejected { name := "RetryException", reason := .str "max tries" }) ∧
        quiescent (drive factory fuel s0) = true ∧
        (drive factory fuel s0).errors = failuresFrom factory 1 N := by
  have hpos : 1 ≤ N := by
    rw [← hN]; unfold maxTriesOf
    split
    · split <;> omega
    · omega
  obtain ⟨s0, s, j, h0, a, er, hj, d⟩ := reaches_attempt hpos (le_refl N) options token hN
    (fun i hi hi2 => hfail i hi (by omega))
  obtain ⟨e, hf, he⟩ := hfail N hpos (le_refl N)
  have hev : nextEvent factory s = some (.attemptFail e) := by
    rw [nextEvent_atAttempt a, hf]
  have hst := step_fail_last a.started a.flight a.pending (by rw [a.limit, a.retry]) he
  refine ⟨s0, h0, fun fuel hfuel => ?_⟩
  rw [drive_last d hev (by rw [hst]; simp [quiescent, a.noTimer]) fuel (by omega), hst]
  refine ⟨a.calls, rfl, by simp [quiescent, a.noTimer], ?_⟩
  show s.errors ++ [e] = _
  rw [er, show N = (N - 1) + 1 by omega, failuresFrom_succ, show 1 + (N - 1) = N by omega, hf]
  simp [AttemptResult.error?]

/-- Attempt `K` resolves after `K - 1` resumable failures: the final state. -/
theorem run_succeeds {factory : Factory} {N K : Nat} {v : Val} (hK1 : 1 ≤ K) (hKN : K ≤ N)
    (options : Option Options) (token : Option CancellationToken)
    (hN : maxTriesOf options = N)
    (hfail : ∀ i, 1 ≤ i → i < K → failsResumably factory i)
    (hok : factory K = .ok v) :
    ∃ s0, newRetryablePromise true options token = .ok s0 ∧
      ∀ fuel, 2 * K ≤ fuel →
        (drive factory fuel s0).invocations = K ∧
        (drive factory fuel s0).outcome = some (.resolved v) ∧
        quiescent (drive factory fuel s0) = true ∧
        (drive factory fuel s0).errors = failuresFrom factory 1 (K - 1) := by
  obtain ⟨s0, s, j, h0, a, er, hj, d⟩ := reaches_attempt hK1 hKN options token hN hfail
  have hev : nextEvent factory s = some (.attemptOk v) := by
    rw [nextEvent_atAttempt a, hok]
  have hst := @step_ok s v a.flight a.pending
  refine ⟨s0, h0, fun fuel hfuel => ?_⟩
  rw [drive_last d hev (by rw [hst]; simp [quiescent, a.noTimer]) fuel (by omega), hst]
  exact ⟨a.calls, rfl, by simp [quiescent, a.noTimer], er⟩

/-- Attempt `K` fails with `resumable === false` after `K - 1` resumable
failures: the final state. -/
theorem run_fatal {factory : Factory} {N K : Nat} {e : Err} (hK1 : 1 ≤ K) (hKN : K ≤ N)
    (options : Option Options) (token : Option CancellationToken)
    (hN : maxTriesOf options = N)
    (hfail : ∀ i, 1 ≤ i → i < K → failsResumably factory i)
    (hf : factory K = .fail e) (he : e.nonResumable = true) :
    ∃ s0, newRetryablePromise true options token = .ok s0 ∧
      ∀ fuel, 2 * K ≤ fuel →
        (drive factory fuel s0).invocations = K ∧
        (drive factory fuel s0).outcome =
          some (.rejected { name := "RetryException", reason := .err e }) ∧
        quiescent (drive factory fuel s0) = true ∧
        (drive factory fuel s0).errors = failuresFrom factory 1 (K - 1) ++ [e] := by
  obtain ⟨s0, s, j, h0, a, er, hj, d⟩ := reaches_attempt hK1 hKN options token hN hfail
  have hev : nextEvent factory s = some (.attemptFail e) := by
    rw [nextEvent_atAttempt a, hf]
  have hst := step_fail_fatal a.flight a.pending he
  refine ⟨s0, h0, fun fuel hfuel => ?_⟩
  rw [drive_last d hev (by rw [hst]; simp [quiescent, a.noTimer]) fuel (by omega), hst]
  refine ⟨a.calls, rfl, by simp [quiescent, a.noTimer], ?_⟩
  show s.errors ++ [e] = _
  rw [er]

theorem inv_stop {s : RetryablePromise} (r : Reason) (h : Inv s) : Inv (stop r s) := by
  obtain ⟨h1, h2, h3⟩ := h
  cases ho : s.outcome <;> constructor <;> simp [stop, settle, ho, h1, h2]

theorem frozen_stop {o : Outcome} {n : Nat} {s : RetryablePromise} (r : Reason)
    (h : Frozen o n s) : Frozen o n (stop r s) := by
  obtain ⟨h1, h2, h3⟩ := h
  refine ⟨inv_stop r h1, ?_, ?_⟩ <;> simp [stop, settle, h2, h3]

theorem inv_deliver {s : RetryablePromise} (c : Listener × String) (h : Inv s) :
    Inv (deliver s c) := by
  obtain ⟨l, r⟩ := c
  cases l with
  | retryStop => exact inv_stop _ h
  | other id => exact ⟨h.started, h.single, h.settled⟩

theorem frozen_deliver {o : Outcome} {n : Nat} {s : RetryablePromise} (c : Listener × String)
    (h : Frozen o n s) : Frozen o n (deliver s c) := by
  obtain ⟨l, r⟩ := c
  cases l with
  | retryStop => exact frozen_stop _ h
  | other id => exact ⟨⟨h.1.started, h.1.single, h.1.settled⟩, h.2.1, h.2.2⟩

theorem inv_cancelToken {s : RetryablePromise} (r : Option String) (h : Inv s) :
    Inv (cancelToken r s) := by
  unfold cancelToken
  cases ht : s.cancellationToken with
  | none => exact h
  | some t =>
    simp only []
    generalize (t.cancel r).2 = calls
    have h' : Inv { s with cancellationToken := some (t.cancel r).1 } :=
      ⟨h.started, h.single, h.settled⟩
    revert h'
    generalize ({ s with cancellationToken := some (t.cancel r).1 } : RetryablePromise) = s'
    induction calls generalizing s' with
    | nil => intro h'; exact h'
    | cons c cs ih => intro h'; exact ih _ (inv_deliver c h')

theorem frozen_cancelToken {o : Outcome} {n : Nat} {s : RetryablePromise} (r : Option String)
    (h : Frozen o n s) : Frozen o n (cancelToken r s) := by
  unfold cancelToken
  cases ht : s.cancellationToken with
  | none => exact h
  | some t =>
    simp only []
    generalize (t.cancel r).2 = calls
    have h' : Frozen o n { s with cancellationToken := some (t.cancel r).1 } :=
      ⟨⟨h.1.started, h.1.single, h.1.settled⟩, h.2.1, h.2.2⟩
    revert h'
    generalize ({ s with cancellationToken := some (t.cancel r).1 } : RetryablePromise) = s'
    induction calls generalizing s' with
    | nil => intro h'; exact h'
    | cons c cs ih => intro h'; exact ih _ (frozen_deliver c h')

theorem inv_onRejected {s : RetryablePromise} (e : Err) (h : Inv s) (hf : ¬ s.inFlight = 0) :
    Inv (onRejected e { s with inFlight := s.inFlight - 1 }) := by
  obtain ⟨h1, h2, h3⟩ := h
  have h5 : s.inFlight = 1 := by omega
  have h6 : s.timers = 0 := by omega
  cases he : e.nonResumable
  · by_cases hge : s.maxTries ≤ s.currentRetry
    · cases ho : s.outcome <;> cases hoe : s.onError <;> constructor <;>
        simp [onRejected, onRejectedWith, run, stop, settle, he, hoe, h1, h5, h6, hge, ho]
    · have hne : s.outcome = none := by
        cases ho : s.outcome with
        | none => rfl
        | some o => have := h3 (by simp [ho]); omega
      have hlt : s.currentRetry + 1 ≤ s.maxTries := by omega
      by_cases hd : s.delay ≥ 0 <;> cases hoe : s.onError <;> constructor <;>
        simp [onRejected, onRejectedWith, run, runOnce, he, hoe, h1, h5, h6, hge, hd, hlt, hne]
  · cases ho : s.outcome <;> cases hoe : s.onError <;> constructor <;>
      simp [onRejected, onRejectedWith, stop, settle, he, hoe, h1, h5, h6, ho]

theorem inv_step {s : RetryablePromise} (ev : Event) (h : Inv s) : Inv (step s ev) := by
  cases ev with
  | cancel r => exact inv_cancelToken r h
  | attemptOk v =>
    obtain ⟨h1, h2, h3⟩ := h
    simp only [step]
    split
    · exact ⟨h1, h2, h3⟩
    · cases ho : s.outcome <;> constructor <;>
        simp [onResolved, settle, ho, h1] <;> omega
  | timerFire =>
    obtain ⟨h1, h2, h3⟩ := h
    simp only [step]
    split
    · exact ⟨h1, h2, h3⟩
    · simp only [runOnce]
      split <;> constructor <;> simp [h1] <;> intros <;>
        first
        | omega
        | cases h3 (by assumption) <;> omega
  | attemptFail e =>
    simp only [step]
    split
    · exact h
    · exact inv_onRejected e h (by assumption)

theorem frozen_step {o : Outcome} {n : Nat} {s : RetryablePromise} (ev : Event)
    (h : Frozen o n s) : Frozen o n (step s ev) := by
  refine ⟨inv_step ev h.1, ?_⟩
  obtain ⟨⟨h1, h2, h3⟩, ho, hn⟩ := h
  have h3' := h3 (by simp [ho])
  cases ev with
  | cancel r => exact (frozen_cancelToken r ⟨⟨h1, h2, h3⟩, ho, hn⟩).2
  | attemptOk v =>
    simp only [step]
    split
    · exact ⟨ho, hn⟩
    · simp [onResolved, settle, ho, hn]
  | timerFire =>
    simp only [step]
    split
    · exact ⟨ho, hn⟩
    · have hge : ¬ (s.currentRetry + 1 ≤ s.maxTries) := by omega
      simp [runOnce, hge, ho, hn]
  | attemptFail e =>
    simp only [step]
    split
    · exact ⟨ho, hn⟩
    · have hge : s.maxTries ≤ s.currentRetry := by omega
      cases hoe : s.onError <;> cases he : e.nonResumable <;>
        simp [onRejected, onRejectedWith, run, stop, settle, hoe, he, h1, hge, ho, hn]

theorem frozen_steps {o : Outcome} {n : Nat} (evs : List Event) :
    ∀ {s : RetryablePromise}, Frozen o n s → Frozen o n (steps s evs) := by
  induction evs with
  | nil => intro s h; exact h
  | cons ev evs ih => intro s h; exact ih (frozen_step ev h)

theorem inv_steps (evs : List Event) :
    ∀ {s : RetryablePromise}, Inv s → Inv (steps s evs) := by
  induction evs with
  | nil => intro s h; exact h
  | cons ev evs ih => intro s h; exact ih (inv_step ev h)

theorem inv_new {options : Option Options} {token : Option CancellationToken}
    {s0 : RetryablePromise} (h0 : newRetryablePromise true options token = .ok s0) :
    Inv s0 := by
  obtain ⟨s, hs, a, _⟩ := newRetryablePromise_ok options token
  rw [h0] at hs
  cases hs
  exact ⟨a.started, by rw [a.flight, a.noTimer], by simp [a.pending]⟩

theorem sameAttempts_refl (s : RetryablePromise) : sameAttempts s s :=
  ⟨rfl, rfl, rfl, rfl, rfl, rfl, rfl, rfl, rfl⟩

theorem sameAttempts_trans {a b c : RetryablePromise} (h1 : sameAttempts a b)
    (h2 : sameAttempts b c) : sameAttempts a c := by
  obtain ⟨a1, a2, a3, a4, a5, a6, a7, a8, a9⟩ := h1
  obtain ⟨b1, b2, b3, b4, b5, b6, b7, b8, b9⟩ := h2
  exact ⟨b1.trans a1, b2.trans a2, b3.trans a3, b4.trans a4, b5.trans a5, b6.trans a6,
    b7.trans a7, b8.trans a8, b9.trans a9⟩

theorem sameAttempts_stop (r : Reason) (s : RetryablePromise) : sameAttempts s (stop r s) := by
  cases ho : s.outcome <;> simp [sameAttempts, stop, settle, ho]

theorem sameAttempts_deliver (c : Listener × String) (s : RetryablePromise) :
    sameAttempts s (deliver s c) := by
  obtain ⟨l, r⟩ := c
  cases l with
  | retryStop => exact sameAttempts_stop _ s
  | other id => exact sameAttempts_refl s

theorem sameAttempts_foldl (calls : List (Listener × String)) :
    ∀ s : RetryablePromise, sameAttempts s (calls.foldl deliver s) := by
  induction calls with
  | nil => intro s; exact sameAttempts_refl s
  | cons c cs ih =>
    intro s
    exact sameAttempts_trans (sameAttempts_deliver c s) (ih _)

theorem sameAttempts_cancelToken (r : Option String) (s : RetryablePromise) :
    sameAttempts s (cancelToken r s) := by
  unfold cancelToken
  cases ht : s.cancellationToken with
  | none => exact sameAttempts_refl s
  | some t =>
    exact sameAttempts_trans (b := { s with cancellationToken := some (t.cancel r).1 })
      (sameAttempts_refl s) (sameAttempts_foldl _ _)

theorem runOnce_invocations_le (s : RetryablePromise) :
    s.invocations ≤ (runOnce s).invocations := by
  simp only [runOnce]
  split <;> simp

theorem stop_invocations (r : Reason) (s : RetryablePromise) :
    (stop r s).invocations = s.invocations :=
  (sameAttempts_stop r s).2.2.2.2.2.1

theorem run_invocations_le (s : RetryablePromise) :
    s.invocations ≤ (run s).invocations := by
  simp only [run]
  split
  · simp only [start]
    refine le_trans ?_ (runOnce_invocations_le _)
    split <;> exact le_refl _
  · split
    · exact ge_of_eq (stop_invocations _ s)
    · split
      · exact le_refl _
      · exact runOnce_invocations_le s

theorem onRejected_invocations_le (e : Err) (s : RetryablePromise) :
    s.invocations ≤ (onRejected e s).invocations := by
  simp only [onRejected, onRejectedWith, id_eq, ite_self]
  split
  · rw [stop_invocations]
    split <;> exact le_refl _
  · refine le_trans ?_ (run_invocations_le _)
    split <;> exact le_refl _

theorem step_invocations_le (s : RetryablePromise) (ev : Event) :
    s.invocations ≤ (step s ev).invocations := by
  cases ev with
  | cancel r => exact ge_of_eq (sameAttempts_cancelToken r s).2.2.2.2.2.1
  | attemptOk v =>
    simp only [step]
    split
    · exact le_refl _
    · cases ho : s.outcome <;> simp [onResolved, settle, ho]
  | timerFire =>
    simp only [step]
    split
    · exact le_refl _
    · exact runOnce_invocations_le { s with timers := s.timers - 1 }
  | attemptFail e =>
    simp only [step]
    split
    · exact le_refl _
    · exact onRejected_invocations_le e { s with inFlight := s.inFlight - 1 }

theorem drive_invocations_le (factory : Factory) (fuel : Nat) :
    ∀ s : RetryablePromise, s.invocations ≤ (drive factory fuel s).invocations := by
  induction fuel with
  | zero => intro s; exact le_refl _
  | succ n ih =>
    intro s
    simp only [drive]
    cases nextEvent factory s with
    | none => exact le_refl _
    | some ev => exact le_trans (step_invocations_le s ev) (ih _)

theorem drive_add (factory : Factory) (a b : Nat) :
    ∀ s : RetryablePromise, drive factory (a + b) s = drive factory b (drive factory a s) := by
  induction a with
  | zero => intro s; simp [drive]
  | succ n ih =>
    intro s
    rw [show n + 1 + b = (n + b) + 1 by omega]
    simp only [drive]
    cases h : nextEvent factory s with
    | none =>
      cases b with
      | zero => rfl
      | succ m => simp [drive, h]
    | some ev => exact ih _

/-! ## Lemmas on the token and on cancellation -/

theorem cancelReason_truthy (r : Option String) :
    Reason.truthy (.str (cancelReason r)) = true := by
  cases r with
  | none => decide
  | some x =>
    simp only [cancelReason, Reason.truthy]
    split
    · assumption
    · decide

theorem cancelReason_cases :
    cancelReason none = "cancelled" ∧ cancelReason (some "") = "cancelled" ∧
      ∀ x : String, x ≠ "" → cancelReason (some x) = x := by
  refine ⟨rfl, rfl, fun x hx => ?_⟩
  simp [cancelReason, hx]

theorem stop_token (r : Reason) (s : RetryablePromise) :
    (stop r s).cancellationToken = s.cancellationToken := by
  cases ho : s.outcome <;> simp [stop, settle, ho]

theorem deliver_token (c : Listener × String) (s : RetryablePromise) :
    (deliver s c).cancellationToken = s.cancellationToken := by
  obtain ⟨l, r⟩ := c
  cases l with
  | retryStop => exact stop_token _ s
  | other id => rfl

theorem foldl_deliver_token (calls : List (Listener × String)) :
    ∀ s : RetryablePromise, (calls.foldl deliver s).cancellationToken = s.cancellationToken := by
  induction calls with
  | nil => intro s; rfl
  | cons c cs ih => intro s; exact (ih _).trans (deliver_token c s)

theorem runOnce_token (s : RetryablePromise) :
    (runOnce s).cancellationToken = s.cancellationToken := by
  simp only [runOnce]
  split <;> rfl

theorem run_token {s : RetryablePromise} (h : s.isStarted = true) :
    (run s).cancellationToken = s.cancellationToken := by
  simp only [run, h]
  simp only [Bool.not_true, Bool.false_eq_true, if_false]
  split
  · exact stop_token _ s
  · split
    · rfl
    · exact runOnce_token s

theorem onRejected_token {s : RetryablePromise} (e : Err) (h : s.isStarted = true) :
    (onRejected e s).cancellationToken = s.cancellationToken := by
  simp only [onRejected, onRejectedWith, id_eq, ite_self]
  split
  · rw [stop_token]
    split <;> rfl
  · split
    · exact run_token (s := { s with errors := s.errors ++ [e],
                                     onErrorCalls := s.onErrorCalls ++ [e] }) h
    · exact run_token (s := { s with errors := s.errors ++ [e] }) h

theorem listening_step {s : RetryablePromise} (ev : Event) (hs : s.isStarted = true)
    (h : Listening s) : Listening (step s ev) := by
  obtain ⟨t, ht, hmem⟩ := h
  cases ev with
  | cancel r =>
    refine ⟨(t.cancel r).1, ?_, hmem⟩
    simp only [step, cancelToken, ht]
    rw [foldl_deliver_token]
  | attemptOk v =>
    refine ⟨t, ?_, hmem⟩
    simp only [step]
    split
    · exact ht
    · cases ho : s.outcome <;> simp [onResolved, settle, ho, ht]
  | timerFire =>
    refine ⟨t, ?_, hmem⟩
    simp only [step]
    split
    · exact ht
    · rw [runOnce_token]; exact ht
  | attemptFail e =>
    refine ⟨t, ?_, hmem⟩
    simp only [step]
    split
    · exact ht
    · rw [onRejected_token e (by exact hs)]; exact ht

theorem listening_steps (evs : List Event) :
    ∀ {s : RetryablePromise}, Inv s → Listening s → Listening (steps s evs) := by
  induction evs with
  | nil => intro s _ h; exact h
  | cons ev evs ih => intro s hi h; exact ih (inv_step ev hi) (listening_step ev hi.started h)

theorem launch_eq (options : Option Options) (token : Option CancellationToken) :
    newRetryablePromise true options token = .ok (launch options token) := rfl

theorem inv_launch (options : Option Options) (token : Option CancellationToken) :
    Inv (launch options token) :=
  inv_new (launch_eq options token)

theorem listening_launch (options : Option Options) (t : CancellationToken) :
    Listening (launch options (some t)) := by
  refine ⟨(t.onCancelled .retryStop).1, ?_, by simp [CancellationToken.onCancelled]⟩
  simp only [launch, run, initial, start]
  simp only [Bool.not_false, if_true]
  rw [runOnce_token]

/-- Once the promise is settled with `currentRetry = maxTries`, listener calls
change neither. -/
theorem foldl_deliver_settled (calls : List (Listener × String)) :
    ∀ (s : RetryablePromise) (o : Outcome), s.outcome = some o → s.currentRetry = s.maxTries →
      (calls.foldl deliver s).outcome = some o ∧
      (calls.foldl deliver s).currentRetry = (calls.foldl deliver s).maxTries := by
  induction calls with
  | nil => intro s o h1 h2; exact ⟨h1, h2⟩
  | cons c cs ih =>
    intro s o h1 h2
    obtain ⟨l, r⟩ := c
    cases l with
    | retryStop =>
      exact ih _ o (by simp [deliver, stop, settle, h1]) (by simp [deliver, stop, settle, h1])
    | other id => exact ih _ o h1 h2

/-- A pending promise is rejected with the reason by the first call that
reaches the controller's `stop` closure. -/
theorem foldl_deliver_pending (c : String) (hc : Reason.truthy (.str c) = true)
    (ls : List Listener) (hmem : Listener.retryStop ∈ ls) :
    ∀ s : RetryablePromise, s.outcome = none →
      ((ls.map (fun l => (l, c))).foldl deliver s).outcome =
        some (.rejected { name := "RetryException", reason := .str c }) ∧
      ((ls.map (fun l => (l, c))).foldl deliver s).currentRetry =
        ((ls.map (fun l => (l, c))).foldl deliver s).maxTries := by
  induction ls with
  | nil => simp at hmem
  | cons l ls ih =>
    intro s hs
    cases l with
    | retryStop =>
      simp only [List.map_cons, List.foldl_cons]
      exact foldl_deliver_settled _ _ _ (by simp [deliver, stop, settle, hs, hc])
        (by simp [deliver, stop, settle, hs])
    | other id =>
      simp only [List.map_cons, List.foldl_cons]
      have hmem2 : Listener.retryStop ∈ ls := by
        simpa using hmem
      exact ih hmem2 _ hs

theorem cancelToken_pending {s : RetryablePromise} (r : Option String) (hl : Listening s)
    (hs : s.outcome = none) :
    (cancelToken r s).outcome =
      some (.rejected { name := "RetryException", reason := .str (cancelReason r) }) ∧
    (cancelToken r s).currentRetry = (cancelToken r s).maxTries := by
  obtain ⟨t, ht, hmem⟩ := hl
  simp only [cancelToken, ht, CancellationToken.cancel]
  exact foldl_deliver_pending _ (cancelReason_truthy r) _ hmem _ hs

theorem run_errors (s : RetryablePromise) :
    (run s).errors = s.errors ∧ (run s).onErrorCalls = s.onErrorCalls := by
  simp only [run]
  split
  · simp only [start, runOnce]
    split <;> split <;> exact ⟨rfl, rfl⟩
  · split
    · exact ⟨(sameAttempts_stop _ s).2.2.2.1, (sameAttempts_stop _ s).2.2.2.2.2.2.2.2⟩
    · split
      · exact ⟨rfl, rfl⟩
      · simp only [runOnce]
        split <;> exact ⟨rfl, rfl⟩

theorem onRejected_errors (e : Err) (s : RetryablePromise) :
    (onRejected e s).errors = s.errors ++ [e] ∧
    (onRejected e s).onErrorCalls =
      if s.onError then s.onErrorCalls ++ [e] else s.onErrorCalls := by
  simp only [onRejected, onRejectedWith, id_eq, ite_self]
  split
  · rw [(sameAttempts_stop _ _).2.2.2.1, (sameAttempts_stop _ _).2.2.2.2.2.2.2.2]
    split <;> exact ⟨rfl, rfl⟩
  · rw [(run_errors _).1, (run_errors _).2]
    split <;> exact ⟨rfl, rfl⟩

/-! ## Runs of the retry loop without cancellation -/

/-- C1 (P1, bounded attempts): with `maxTries = N ≥ 1`, any delay, any
`onError`, any token that nobody cancels, and a factory whose attempts
`1..N` all fail with an error not marked `resumable === false`, the
constructor succeeds, the number of factory calls never exceeds `N`, and from
`2 * N` turns of the event loop on the controller has terminated (promise
settled, nothing pending) with exactly `N` factory calls. -/
theorem bounded_attempts (N : Nat) (hN : 1 ≤ N) (delay : Option Int) (onError : Bool)
    (token : Option CancellationToken) (factory : Factory)
    (hfail : ∀ k, 1 ≤ k → k ≤ N → failsResumably factory k) :
    ∃ s0, newRetryablePromise true
        (some { maxTries := some N, delay := delay, onError := onError }) token = .ok s0 ∧
      (∀ fuel, (drive factory fuel s0).invocations ≤ N) ∧
      ∀ fuel, 2 * N ≤ fuel →
        (drive factory fuel s0).invocations = N ∧
        (drive factory fuel s0).outcome ≠ none ∧
        quiescent (drive factory fuel s0) = true := by
  obtain ⟨s0, h0, hrun⟩ := @run_exhausted factory N _ token
    (maxTriesOf_some N hN delay onError) hfail
  refine ⟨s0, h0, fun fuel => ?_, fun fuel hfuel => ?_⟩
  · have h1 := drive_invocations_le factory (2 * N) (drive factory fuel s0)
    rw [← drive_add, (hrun (fuel + 2 * N) (by omega)).1] at h1
    exact h1
  · obtain ⟨h1, h2, h3, _⟩ := hrun fuel hfuel
    exact ⟨h1, by simp [h2], h3⟩

/-- C1 at `maxTries = 2` with a factory that always fails resumably. -/
theorem bounded_attempts_witness :
    (1 ≤ 2 ∧ ∀ k, 1 ≤ k → k ≤ 2 →
        failsResumably (fun _ => AttemptResult.fail { message := "e", resumable := none }) k) ∧
    ∃ s0, newRetryablePromise true
        (some { maxTries := some 2, delay := some 10, onError := true }) none = .ok s0 ∧
      (∀ fuel, (drive (fun _ => AttemptResult.fail { message := "e", resumable := none })
          fuel s0).invocations ≤ 2) ∧
      ∀ fuel, 2 * 2 ≤ fuel →
        (drive (fun _ => AttemptResult.fail { message := "e", resumable := none })
          fuel s0).invocations = 2 ∧
        (drive (fun _ => AttemptResult.fail { message := "e", resumable := none })
          fuel s0).outcome ≠ none ∧
        quiescent (drive (fun _ => AttemptResult.fail { message := "e", resumable := none })
          fuel s0) = true :=
  ⟨⟨by decide, fun _ _ _ => ⟨_, rfl, rfl⟩⟩,
   bounded_attempts 2 (by decide) (some 10) true none _ (fun _ _ _ => ⟨_, rfl, rfl⟩)⟩

/-- C2 (P2, early success): with `maxTries = N ≥ 1` and `1 ≤ K ≤ N`, if
attempts `1..K-1` fail resumably and attempt `K` resolves with `v`, and nobody
cancels, then from `2 * K` turns on the promise is resolved with exactly `v`,
the factory has been called exactly `K` times and nothing is pending. -/
theorem early_success (N K : Nat) (hK1 : 1 ≤ K) (hKN : K ≤ N) (v : Val)
    (delay : Option Int) (onError : Bool) (token : Option CancellationToken)
    (factory : Factory)
    (hfail : ∀ i, 1 ≤ i → i < K → failsResumably factory i)
    (hok : factory K = .ok v) :
    ∃ s0, newRetryablePromise true
        (some { maxTries := some N, delay := delay, onError := onError }) token = .ok s0 ∧
      (∀ fuel, (drive factory fuel s0).invocations ≤ K) ∧
      ∀ fuel, 2 * K ≤ fuel →
        (drive factory fuel s0).outcome = some (.resolved v) ∧
        (drive factory fuel s0).invocations = K ∧
        quiescent (drive factory fuel s0) = true := by
  obtain ⟨s0, h0, hrun⟩ := run_succeeds hK1 hKN _ token
    (maxTriesOf_some N (by omega) delay onError) hfail hok
  refine ⟨s0, h0, fun fuel => ?_, fun fuel hfuel => ?_⟩
  · have h1 := drive_invocations_le factory (2 * K) (drive factory fuel s0)
    rw [← drive_add, (hrun (fuel + 2 * K) (by omega)).1] at h1
    exact h1
  · obtain ⟨h1, h2, h3, _⟩ := hrun fuel hfuel
    exact ⟨h2, h1, h3⟩

/-- C2 at `maxTries = 5` with a factory that resolves with `"ok"` on its
second call. -/
theorem early_success_witness :
    (1 ≤ 2 ∧ 2 ≤ 5 ∧
      (∀ i, 1 ≤ i → i < 2 → failsResumably (fun k =>
        if k = 2 then AttemptResult.ok "ok"
        else AttemptResult.fail { message := "e", resumable := some true }) i) ∧
      (fun k => if k = 2 then AttemptResult.ok "ok"
        else AttemptResult.fail { message := "e", resumable := some true }) 2 = .ok "ok") ∧
    ∃ s0, newRetryablePromise true
        (some { maxTries := some 5, delay := none, onError := false }) none = .ok s0 ∧
      (∀ fuel, (drive (fun k => if k = 2 then AttemptResult.ok "ok"
        else AttemptResult.fail { message := "e", resumable := some true })
          fuel s0).invocations ≤ 2) ∧
      ∀ fuel, 2 * 2 ≤ fuel →
        (drive (fun k => if k = 2 then AttemptResult.ok "ok"
          else AttemptResult.fail { message := "e", resumable := some true })
            fuel s0).outcome = some (.resolved "ok") ∧
        (drive (fun k => if k = 2 then AttemptResult.ok "ok"
          else AttemptResult.fail { message := "e", resumable := some true })
            fuel s0).invocations = 2 ∧
        quiescent (drive (fun k => if k = 2 then AttemptResult.ok "ok"
          else AttemptResult.fail { message := "e", resumable := some true })
            fuel s0) = true :=
  have hf : ∀ i, 1 ≤ i → i < 2 → failsResumably (fun k =>
      if k = 2 then AttemptResult.ok "ok"
      else AttemptResult.fail { message := "e", resumable := some true }) i :=
    fun i h1 h2 => ⟨{ message := "e", resumable := some true },
      by have : i = 1 := by omega
         subst this; rfl, rfl⟩
  ⟨⟨by decide, by decide, hf, rfl⟩,
   early_success 5 2 (by decide) (by decide) "ok" none false none _ hf rfl⟩

/-- C3 (P3, non-resumable short-circuit): with `maxTries = N ≥ 1` and
`1 ≤ K ≤ N`, if attempts `1..K-1` fail resumably and attempt `K` fails with an
error whose `resumable` is exactly `false`, and nobody cancels, then the
factory is never called more than `K` times and from `2 * K` turns on the
promise is rejected, the factory has been called exactly `K` times and nothing
is pending. At `K = 1`: one call, whatever `N`. -/
theorem non_resumable_short_circuit (N K : Nat) (hK1 : 1 ≤ K) (hKN : K ≤ N) (e : Err)
    (delay : Option Int) (onError : Bool) (token : Option CancellationToken)
    (factory : Factory)
    (hfail : ∀ i, 1 ≤ i → i < K → failsResumably factory i)
    (hf : factory K = .fail e) (he : e.resumable = some false) :
    ∃ s0, newRetryablePromise true
        (some { maxTries := some N, delay := delay, onError := onError }) token = .ok s0 ∧
      (∀ fuel, (drive factory fuel s0).invocations ≤ K) ∧
      ∀ fuel, 2 * K ≤ fuel →
        (drive factory fuel s0).invocations = K ∧
        (∃ ex, (drive factory fuel s0).outcome = some (.rejected ex)) ∧
        quiescent (drive factory fuel s0) = true := by
  have he2 : e.nonResumable = true := by simp [Err.nonResumable, he]
  obtain ⟨s0, h0, hrun⟩ := run_fatal hK1 hKN _ token
    (maxTriesOf_some N (by omega) delay onError) hfail hf he2
  refine ⟨s0, h0, fun fuel => ?_, fun fuel hfuel => ?_⟩
  · have h1 := drive_invocations_le factory (2 * K) (drive factory fuel s0)
    rw [← drive_add, (hrun (fuel + 2 * K) (by omega)).1] at h1
    exact h1
  · obtain ⟨h1, h2, h3, _⟩ := hrun fuel hfuel
    exact ⟨h1, ⟨_, h2⟩, h3⟩

/-- C3 at `maxTries = 7`, first attempt failing with `resumable: false`. -/
theorem non_resumable_short_circuit_witness :
    (1 ≤ 1 ∧ 1 ≤ 7 ∧
      (∀ i, 1 ≤ i → i < 1 → failsResumably
        (fun _ => AttemptResult.fail { message := "404", resumable := some false }) i) ∧
      (fun _ => AttemptResult.fail { message := "404", resumable := some false }) 1 =
        AttemptResult.fail { message := "404", resumable := some false } ∧
      ({ message := "404", resumable := some false } : Err).resumable = some false) ∧
    ∃ s0, newRetryablePromise true
        (some { maxTries := some 7, delay := some 100, onError := false }) none = .ok s0 ∧
      (∀ fuel, (drive (fun _ => AttemptResult.fail { message := "404", resumable := some false })
        fuel s0).invocations ≤ 1) ∧
      ∀ fuel, 2 * 1 ≤ fuel →
        (drive (fun _ => AttemptResult.fail { message := "404", resumable := some false })
          fuel s0).invocations = 1 ∧
        (∃ ex, (drive (fun _ => AttemptResult.fail { message := "404", resumable := some false })
          fuel s0).outcome = some (.rejected ex)) ∧
        quiescent (drive (fun _ => AttemptResult.fail { message := "404", resumable := some false })
          fuel s0) = true :=
  ⟨⟨by decide, by decide, fun i h1 h2 => absurd h1 (by omega), rfl, rfl⟩,
   non_resumable_short_circuit 7 1 (by decide) (by decide) _ (some 100) false none _
     (fun i h1 h2 => absurd h1 (by omega)) rfl rfl⟩

/-- C4 (exhaustion settles): with `maxTries = N ≥ 1`, nobody cancelling, and
attempts `1..N` all failing resumably, from `2 * N` turns on the promise is no
longer pending: it is rejected with a `RetryException` whose `reason` is the
string `"max tries"` and whose `errors` are the `N` attempt errors. -/
theorem exhaustion_settles (N : Nat) (hN : 1 ≤ N) (delay : Option Int) (onError : Bool)
    (token : Option CancellationToken) (factory : Factory)
    (hfail : ∀ k, 1 ≤ k → k ≤ N → failsResumably factory k) :
    ∃ s0, newRetryablePromise true
        (some { maxTries := some N, delay := delay, onError := onError }) token = .ok s0 ∧
      ∀ fuel, 2 * N ≤ fuel →
        (drive factory fuel s0).outcome =
          some (.rejected { name := "RetryException", reason := .str "max tries" }) ∧
        deliveredErrors (drive factory fuel s0) = failuresFrom factory 1 N := by
  obtain ⟨s0, h0, hrun⟩ := @run_exhausted factory N _ token
    (maxTriesOf_some N hN delay onError) hfail
  refine ⟨s0, h0, fun fuel hfuel => ?_⟩
  obtain ⟨_, h2, _, h4⟩ := hrun fuel hfuel
  exact ⟨h2, h4⟩

/-- C4 at `maxTries = 3` with a factory that always rejects with
`resumable: true`. -/
theorem exhaustion_settles_witness :
    (1 ≤ 3 ∧ ∀ k, 1 ≤ k → k ≤ 3 → failsResumably
        (fun _ => AttemptResult.fail { message := "e", resumable := some true }) k) ∧
    ∃ s0, newRetryablePromise true
        (some { maxTries := some 3, delay := none, onError := false }) none = .ok s0 ∧
      ∀ fuel, 2 * 3 ≤ fuel →
        (drive (fun _ => AttemptResult.fail { message := "e", resumable := some true })
          fuel s0).outcome =
          some (.rejected { name := "RetryException", reason := .str "max tries" }) ∧
        deliveredErrors (drive
          (fun _ => AttemptResult.fail { message := "e", resumable := some true }) fuel s0) =
          failuresFrom (fun _ => AttemptResult.fail { message := "e", resumable := some true })
            1 3 :=
  ⟨⟨by decide, fun _ _ _ => ⟨_, rfl, rfl⟩⟩,
   exhaustion_settles 3 (by decide) none false none _ (fun _ _ _ => ⟨_, rfl, rfl⟩)⟩

/-! ## Termination reasons, cancellation and absorption -/

/-- C5, as stated, fails: a controller with default options whose first attempt
fails with `resumable: false` is rejected with that error object as `reason`,
not with the string `"errors"`. -/
theorem non_resumable_reason_counterexample :
    (newRetryablePromise true none none).toOption.map
        (fun s => (step s (.attemptFail { message := "fatal", resumable := some false })).outcome) =
      some (some (.rejected
        { name := "RetryException",
          reason := .err { message := "fatal", resumable := some false } })) ∧
    (newRetryablePromise true none none).toOption.map
        (fun s => (step s (.attemptFail { message := "fatal", resumable := some false })).outcome) ≠
      some (some (.rejected { name := "RetryException", reason := .str "errors" })) := by
  constructor
  · rfl
  · decide

/-- C5, amended: when an attempt of a controller whose promise is still
pending fails with an error `e` whose `resumable` is exactly `false`, the
promise is rejected with a `RetryException` whose `reason` is `e` itself and
whose `errors` contain `e`. -/
theorem non_resumable_reason (s : RetryablePromise) (e : Err)
    (he : e.resumable = some false) (hfl : s.inFlight ≠ 0) (hpend : s.outcome = none) :
    (step s (.attemptFail e)).outcome =
      some (.rejected { name := "RetryException", reason := .err e }) ∧
    e ∈ deliveredErrors (step s (.attemptFail e)) := by
  have he2 : e.nonResumable = true := by simp [Err.nonResumable, he]
  constructor
  · cases hoe : s.onError <;>
      simp [step, hfl, onRejected, onRejectedWith, stop, settle, Reason.truthy, he2, hoe, hpend]
  · simp only [step, hfl, if_false, deliveredErrors]
    rw [(onRejected_errors e _).1]
    simp

/-- C5 amended, at a freshly launched controller with default options. -/
theorem non_resumable_reason_witness :
    (({ message := "fatal", resumable := some false } : Err).resumable = some false ∧
      (launch none none).inFlight ≠ 0 ∧ (launch none none).outcome = none) ∧
    ((step (launch none none)
        (.attemptFail { message := "fatal", resumable := some false })).outcome =
      some (.rejected { name := "RetryException",
                        reason := .err { message := "fatal", resumable := some false } }) ∧
    ({ message := "fatal", resumable := some false } : Err) ∈
      deliveredErrors (step (launch none none)
        (.attemptFail { message := "fatal", resumable := some false }))) :=
  ⟨⟨rfl, by decide, rfl⟩,
   non_resumable_reason (launch none none) { message := "fatal", resumable := some false }
     rfl (by decide) rfl⟩

/-- C6, as stated, fails: a token cancelled with `"r"` before the controller
is constructed does not prevent the first attempt; after construction the
factory has been called once and the promise is pending. -/
theorem cancelled_before_start_counterexample :
    (CancellationToken.fresh.cancel (some "r")).1.isCancelled = true ∧
    (newRetryablePromise true none (some (CancellationToken.fresh.cancel (some "r")).1)).toOption.map
        (fun s => (s.invocations, s.outcome)) = some (1, none) := by
  decide

/-- C6, amended: construction never reads the token's state. With a token
already cancelled with any reason, the constructor registers its listener and
calls the factory once, leaving the promise pending: the controller is the one
obtained from the same token before its cancellation, except for the reason
stored in the token. -/
theorem cancelled_before_start (options : Option Options) (t : CancellationToken)
    (r : Option String) :
    (t.cancel r).1.isCancelled = true ∧
    newRetryablePromise true options (some (t.cancel r).1) =
      .ok (launch options (some (t.cancel r).1)) ∧
    (launch options (some (t.cancel r).1)).invocations = 1 ∧
    (launch options (some (t.cancel r).1)).inFlight = 1 ∧
    (launch options (some (t.cancel r).1)).outcome = none ∧
    launch options (some (t.cancel r).1) =
      { launch options (some t) with
        cancellationToken := some { cancelled := cancelReason r,
                                    listeners := t.listeners ++ [.retryStop] } } := by
  obtain ⟨s0, h0, a, _⟩ := newRetryablePromise_ok options (some (t.cancel r).1)
  rw [launch_eq] at h0
  cases h0
  refine ⟨?_, rfl, a.calls, a.flight, a.pending, ?_⟩
  · have := cancelReason_truthy r
    simpa [CancellationToken.isCancelled, CancellationToken.cancel, Reason.truthy] using this
  · have hpos : 1 ≤ maxTriesOf options := by
      unfold maxTriesOf
      split
      · split <;> omega
      · omega
    simp [launch, initial, run, start, runOnce, CancellationToken.cancel,
      CancellationToken.onCancelled, hpos]

/-- C7, as stated, fails at the empty string: `token.cancel("")` on a pending
controller rejects with reason `"cancelled"`, not with the given `""`. -/
theorem cancel_while_running_counterexample :
    (launch none (some CancellationToken.fresh)).outcome = none ∧
    (step (launch none (some CancellationToken.fresh)) (.cancel (some ""))).outcome =
      some (.rejected { name := "RetryException", reason := .str "cancelled" }) ∧
    (step (launch none (some CancellationToken.fresh)) (.cancel (some ""))).outcome ≠
      some (.rejected { name := "RetryException", reason := .str "" }) := by
  decide

/-- C7, amended (cancellation while running): for a controller constructed with
a token, in any state reached with the promise still pending (an attempt may
be in flight), `token.cancel(r)` with any argument `r` sets `currentRetry` to
`maxTries` and rejects the promise with a `RetryException` whose `errors` are
the errors collected so far and whose `reason` is `r || 'cancelled'`: `r` when
it is a non-empty string, `"cancelled"` when it is omitted or empty. -/
theorem cancel_while_running (options : Option Options) (t : CancellationToken)
    (evs : List Event) (r : Option String)
    (hpend : (steps (launch options (some t)) evs).outcome = none) :
    (step (steps (launch options (some t)) evs) (.cancel r)).currentRetry =
      (step (steps (launch options (some t)) evs) (.cancel r)).maxTries ∧
    (step (steps (launch options (some t)) evs) (.cancel r)).outcome =
      some (.rejected { name := "RetryException", reason := .str (cancelReason r) }) ∧
    deliveredErrors (step (steps (launch options (some t)) evs) (.cancel r)) =
      (steps (launch options (some t)) evs).errors ∧
    (cancelReason none = "cancelled" ∧ cancelReason (some "") = "cancelled" ∧
      ∀ x : String, x ≠ "" → cancelReason (some x) = x) := by
  have hl := listening_steps evs (inv_launch options (some t)) (listening_launch options t)
  obtain ⟨h1, h2⟩ := cancelToken_pending r hl hpend
  exact ⟨h2, h1, (sameAttempts_cancelToken r _).2.2.2.1, cancelReason_cases⟩

/-- C7 amended, with reason `"deadline"`, after one resumable failure and with
the second attempt in flight. -/
theorem cancel_while_running_witness :
    (steps (launch none (some CancellationToken.fresh))
        [.attemptFail { message := "e", resumable := none }]).outcome = none ∧
    ((step (steps (launch none (some CancellationToken.fresh))
        [.attemptFail { message := "e", resumable := none }]) (.cancel (some "deadline"))).currentRetry =
      (step (steps (launch none (some CancellationToken.fresh))
        [.attemptFail { message := "e", resumable := none }]) (.cancel (some "deadline"))).maxTries ∧
    (step (steps (launch none (some CancellationToken.fresh))
        [.attemptFail { message := "e", resumable := none }]) (.cancel (some "deadline"))).outcome =
      some (.rejected { name := "RetryException",
                        reason := .str (cancelReason (some "deadline")) }) ∧
    deliveredErrors (step (steps (launch none (some CancellationToken.fresh))
        [.attemptFail { message := "e", resumable := none }]) (.cancel (some "deadline"))) =
      (steps (launch none (some CancellationToken.fresh))
        [.attemptFail { message := "e", resumable := none }]).errors ∧
    (cancelReason none = "cancelled" ∧ cancelReason (some "") = "cancelled" ∧
      ∀ x : String, x ≠ "" → cancelReason (some x) = x)) :=
  ⟨by decide,
   cancel_while_running none CancellationToken.fresh
     [.attemptFail { message := "e", resumable := none }] (some "deadline") (by decide)⟩

/-- C8 (terminated is absorbing): for a controller constructed with any options
and any token, once a sequence of events has left the promise settled with
outcome `o`, every further sequence of events (attempt success or failure,
timer firing, cancel) leaves the outcome `o` and the number of factory calls
unchanged. -/
theorem terminated_absorbing (options : Option Options) (token : Option CancellationToken)
    (before later : List Event) (o : Outcome)
    (hset : (steps (launch options token) before).outcome = some o) :
    (steps (steps (launch options token) before) later).outcome = some o ∧
    (steps (steps (launch options token) before) later).invocations =
      (steps (launch options token) before).invocations :=
  (frozen_steps later
    ⟨inv_steps before (inv_launch options token), hset, rfl⟩).2

/-- C8 after a success on the first attempt, followed by a cancel, a timer and
a failure event. -/
theorem terminated_absorbing_witness :
    (steps (launch none (some CancellationToken.fresh)) [.attemptOk "ok"]).outcome =
      some (.resolved "ok") ∧
    ((steps (steps (launch none (some CancellationToken.fresh)) [.attemptOk "ok"])
        [.cancel none, .timerFire, .attemptFail { message := "e", resumable := none }]).outcome =
      some (.resolved "ok") ∧
    (steps (steps (launch none (some CancellationToken.fresh)) [.attemptOk "ok"])
        [.cancel none, .timerFire,
         .attemptFail { message := "e", resumable := none }]).invocations =
      (steps (launch none (some CancellationToken.fresh)) [.attemptOk "ok"]).invocations) :=
  ⟨by decide,
   terminated_absorbing none (some CancellationToken.fresh) [.attemptOk "ok"]
     [.cancel none, .timerFire, .attemptFail { message := "e", resumable := none }]
     (.resolved "ok") (by decide)⟩

/-- C9, as stated, fails: with `onError` configured, a token cancelled with
`"deadline"` while the first attempt is in flight rejects the promise; when
that attempt later fails, its error is still appended to the controller's
`errors` (the array the delivered `RetryException` carries) and `onError` is
still called. -/
theorem in_flight_failure_after_cancel_counterexample :
    (step (launch (some { maxTries := none, delay := none, onError := true })
        (some CancellationToken.fresh)) (.cancel (some "deadline"))).outcome =
      some (.rejected { name := "RetryException", reason := .str "deadline" }) ∧
    (step (launch (some { maxTries := none, delay := none, onError := true })
        (some CancellationToken.fresh)) (.cancel (some "deadline"))).inFlight = 1 ∧
    deliveredErrors (step (launch (some { maxTries := none, delay := none, onError := true })
        (some CancellationToken.fresh)) (.cancel (some "deadline"))) = [] ∧
    deliveredErrors (step (step (launch (some { maxTries := none, delay := none, onError := true })
        (some CancellationToken.fresh)) (.cancel (some "deadline")))
        (.attemptFail { message := "late", resumable := none })) =
      [{ message := "late", resumable := none }] ∧
    (step (launch (some { maxTries := none, delay := none, onError := true })
        (some CancellationToken.fresh)) (.cancel (some "deadline"))).onErrorCalls = [] ∧
    (step (step (launch (some { maxTries := none, delay := none, onError := true })
        (some CancellationToken.fresh)) (.cancel (some "deadline")))
        (.attemptFail { message := "late", resumable := none })).onErrorCalls =
      [{ message := "late", resumable := none }] := by
  decide

/-- C9, amended: for a controller terminated by cancellation while an attempt
is in flight, the later failure of that attempt neither calls the factory
again nor replaces the rejection already delivered; its error is appended to
the controller's `errors`, which is the array carried by the delivered
`RetryException`, and `onError`, when configured, is called with it. -/
theorem in_flight_failure_after_cancel (options : Option Options) (t : CancellationToken)
    (evs : List Event) (r : Option String) (e : Err)
    (hpend : (steps (launch options (some t)) evs).outcome = none)
    (hfl : (steps (launch options (some t)) evs).inFlight ≠ 0) :
    (step (steps (launch options (some t)) evs) (.cancel r)).outcome =
      some (.rejected { name := "RetryException", reason := .str (cancelReason r) }) ∧
    (step (step (steps (launch options (some t)) evs) (.cancel r)) (.attemptFail e)).outcome =
      some (.rejected { name := "RetryException", reason := .str (cancelReason r) }) ∧
    (step (step (steps (launch options (some t)) evs) (.cancel r)) (.attemptFail e)).invocations =
      (steps (launch options (some t)) evs).invocations ∧
    deliveredErrors (step (step (steps (launch options (some t)) evs) (.cancel r))
        (.attemptFail e)) =
      deliveredErrors (step (steps (launch options (some t)) evs) (.cancel r)) ++ [e] ∧
    (step (step (steps (launch options (some t)) evs) (.cancel r)) (.attemptFail e)).onErrorCalls =
      if (steps (launch options (some t)) evs).onError then
        (step (steps (launch options (some t)) evs) (.cancel r)).onErrorCalls ++ [e]
      else (step (steps (launch options (some t)) evs) (.cancel r)).onErrorCalls := by
  have hinv := inv_steps evs (inv_launch options (some t))
  have hl := listening_steps evs (inv_launch options (some t)) (listening_launch options t)
  generalize steps (launch options (some t)) evs = s at *
  have h1 : (step s (.cancel r)).outcome = _ := (cancelToken_pending r hl hpend).1
  obtain ⟨_, _, f3, _, _, f6, f7, _, _⟩ := sameAttempts_cancelToken r s
  have hfr : Frozen _ s.invocations (step s (.cancel r)) := ⟨inv_step _ hinv, h1, f6⟩
  have h2 := frozen_step (.attemptFail e) hfr
  have hfl2 : (cancelToken r s).inFlight ≠ 0 := by
    rw [f7]; exact hfl
  have hstep : step (step s (.cancel r)) (.attemptFail e) =
      onRejected e { cancelToken r s with inFlight := (cancelToken r s).inFlight - 1 } := by
    simp only [step]
    rw [if_neg hfl2]
  refine ⟨h1, h2.2.1, h2.2.2, ?_, ?_⟩
  · simp only [deliveredErrors]
    rw [hstep]
    exact (onRejected_errors e _).1
  · rw [hstep, (onRejected_errors e _).2]
    show (if (cancelToken r s).onError = true then _ else _) = _
    rw [f3]
    rfl

/-- C9 amended, at a controller cancelled with `"deadline"` during its first
attempt. -/
theorem in_flight_failure_after_cancel_witness :
    ((steps (launch none (some CancellationToken.fresh)) []).outcome = none ∧
      (steps (launch none (some CancellationToken.fresh)) []).inFlight ≠ 0) ∧
    (step (step (steps (launch none (some CancellationToken.fresh)) [])
        (.cancel (some "deadline")))
        (.attemptFail { message := "late", resumable := none })).outcome =
      some (.rejected { name := "RetryException",
                        reason := .str (cancelReason (some "deadline")) }) ∧
    deliveredErrors (step (step (steps (launch none (some CancellationToken.fresh)) [])
        (.cancel (some "deadline")))
        (.attemptFail { message := "late", resumable := none })) =
      deliveredErrors (step (steps (launch none (some CancellationToken.fresh)) [])
        (.cancel (some "deadline"))) ++ [{ message := "late", resumable := none }] :=
  ⟨⟨by decide, by decide⟩,
   (in_flight_failure_after_cancel none CancellationToken.fresh [] (some "deadline")
      { message := "late", resumable := none } (by decide) (by decide)).2.1,
   (in_flight_failure_after_cancel none CancellationToken.fresh [] (some "deadline")
      { message := "late", resumable := none } (by decide) (by decide)).2.2.2.1⟩

/-- C10, as stated, fails: after `cancel("a")` then `cancel("b")` the stored
reason is `"b"`, the listener is called with `"b"`, and a `timeoutAfter` timer
firing after `cancel("a")` stores `"timeout"`. -/
theorem write_once_reason_counterexample :
    ((CancellationToken.fresh.cancel (some "a")).1.cancel (some "b")).1.cancelled = "b" ∧
    ((CancellationToken.fresh.cancel (some "a")).1.cancel (some "b")).1.cancelled ≠ "a" ∧
    ((((CancellationToken.fresh.onCancelled (.other 0)).1.cancel (some "a")).1.cancel
        (some "b")).2 = [(.other 0, "b")]) ∧
    ((CancellationToken.fresh.cancel (some "a")).1.timeoutFired).1.cancelled = "timeout" := by
  decide

/-- C10, amended: `cancel` overwrites. After `cancel(r1)` then `cancel(r2)` the
stored reason is the one of the second call (`r2`, or `"cancelled"` when `r2`
is omitted or empty) and the listeners called by the second call receive that
reason; a `timeoutAfter` timer firing after `cancel(r1)` stores `"timeout"` and
passes `"timeout"` to the listeners. -/
theorem last_cancel_wins (t : CancellationToken) (r1 r2 : Option String) :
    ((t.cancel r1).1.cancel r2).1.cancelled = cancelReason r2 ∧
    ((t.cancel r1).1.cancel r2).2 = t.listeners.map (fun l => (l, cancelReason r2)) ∧
    ((t.cancel r1).1.timeoutFired).1.cancelled = "timeout" ∧
    ((t.cancel r1).1.timeoutFired).2 = t.listeners.map (fun l => (l, "timeout")) := by
  refine ⟨rfl, rfl, ?_, ?_⟩ <;>
    simp [CancellationToken.timeoutFired, CancellationToken.cancel, cancelReason]

/-! ## Lemmas on registration, traces and bounds -/

theorem registerAll_listeners (ls : List Listener) :
    ∀ t : CancellationToken, (registerAll t ls).listeners = t.listeners ++ ls ∧
      (registerAll t ls).cancelled = t.cancelled := by
  induction ls with
  | nil => intro t; simp [registerAll]
  | cons l ls ih =>
    intro t
    have h := ih (t.onCancelled l).1
    simp only [registerAll, List.foldl_cons] at h ⊢
    rw [h.1, h.2]
    simp [CancellationToken.onCancelled]

/-! ## The cancellation token -/

/-- C11, as stated, fails at the empty string: `cancel("")` calls the listeners
with `"cancelled"`, not with the given `""`. -/
theorem listener_dispatch_counterexample :
    ((registerAll CancellationToken.fresh [.other 1, .other 2]).cancel (some "")).2 =
      [(.other 1, "cancelled"), (.other 2, "cancelled")] ∧
    ((registerAll CancellationToken.fresh [.other 1, .other 2]).cancel (some "")).2 ≠
      [(.other 1, ""), (.other 2, "")] := by
  decide

/-- C11, amended (listener dispatch): on a token whose listeners were
registered with `onCancelled` in the order `ls` (after those it already had),
`cancel(r)` with any argument calls every listener exactly once, in
registration order, each with the stored reason, which is `r || 'cancelled'`:
`r` when it is a non-empty string, `"cancelled"` when it is omitted or
empty. -/
theorem listener_dispatch (t : CancellationToken) (ls : List Listener) (r : Option String) :
    ((registerAll t ls).cancel r).2 =
      (t.listeners ++ ls).map (fun l => (l, cancelReason r)) ∧
    ((registerAll t ls).cancel r).1.cancelled = cancelReason r ∧
    ((registerAll CancellationToken.fresh ls).cancel r).2 =
      ls.map (fun l => (l, cancelReason r)) ∧
    (cancelReason none = "cancelled" ∧ cancelReason (some "") = "cancelled" ∧
      ∀ x : String, x ≠ "" → cancelReason (some x) = x) := by
  have h := registerAll_listeners ls t
  have h0 := registerAll_listeners ls CancellationToken.fresh
  refine ⟨?_, rfl, ?_, cancelReason_cases⟩
  · simp only [CancellationToken.cancel, h.1]
  · simp only [CancellationToken.cancel, h0.1]
    simp [CancellationToken.fresh]

/-- C11 amended, with three listeners and the reason `"stop"`. -/
theorem listener_dispatch_witness :
    ((registerAll CancellationToken.fresh [.other 1, .other 2, .other 3]).cancel
        (some "stop")).2 =
      [Listener.other 1, Listener.other 2, Listener.other 3].map
        (fun l => (l, cancelReason (some "stop"))) ∧
    cancelReason (some "stop") = "stop" :=
  ⟨(listener_dispatch CancellationToken.fresh [.other 1, .other 2, .other 3]
      (some "stop")).2.2.1,
   (listener_dispatch CancellationToken.fresh [.other 1, .other 2, .other 3]
      (some "stop")).2.2.2.2.2 "stop" (by decide)⟩

/-- C12 (`isCancelled` reflects cancellation): a fresh token is not cancelled,
registering listeners leaves `isCancelled` as it was (so `false` on a fresh
token), and after `cancel(r)` with any argument (non-empty, empty or omitted)
`isCancelled` is `true` and the stored reason is a non-empty string. -/
theorem isCancelled_reflects (t : CancellationToken) (ls : List Listener)
    (r : Option String) :
    CancellationToken.fresh.isCancelled = false ∧
    (registerAll CancellationToken.fresh ls).isCancelled = false ∧
    (registerAll t ls).isCancelled = t.isCancelled ∧
    (t.cancel r).1.isCancelled = true ∧
    (t.cancel r).1.cancelled ≠ "" := by
  have hne : cancelReason r ≠ "" := by
    have := cancelReason_truthy r
    simpa [Reason.truthy] using this
  refine ⟨rfl, ?_, ?_, ?_, hne⟩
  · simp [CancellationToken.isCancelled, (registerAll_listeners ls _).2,
      CancellationToken.fresh]
  · simp [CancellationToken.isCancelled, (registerAll_listeners ls _).2]
  · simpa [CancellationToken.isCancelled, CancellationToken.cancel] using hne

/-! ## Lemmas on the errors collected along a trace -/

theorem failuresOf_cons (s : RetryablePromise) (ev : Event) (evs : List Event) :
    failuresOf s (ev :: evs) = failuresOf s [ev] ++ failuresOf (step s ev) evs := by
  cases ev <;> simp [failuresOf]

theorem runOnce_errors (s : RetryablePromise) :
    (runOnce s).errors = s.errors ∧ (runOnce s).onErrorCalls = s.onErrorCalls ∧
      (runOnce s).onError = s.onError := by
  simp only [runOnce]
  split <;> exact ⟨rfl, rfl, rfl⟩

theorem run_onError (s : RetryablePromise) : (run s).onError = s.onError := by
  simp only [run]
  split
  · simp only [start]
    rw [(runOnce_errors _).2.2]
    split <;> rfl
  · split
    · exact (sameAttempts_stop _ s).2.2.1
    · split
      · rfl
      · exact (runOnce_errors s).2.2

theorem onRejected_onError (e : Err) (s : RetryablePromise) :
    (onRejected e s).onError = s.onError := by
  simp only [onRejected, onRejectedWith, id_eq, ite_self]
  split
  · rw [(sameAttempts_stop _ _).2.2.1]
    split <;> rfl
  · rw [run_onError]
    split <;> rfl

theorem step_onError (s : RetryablePromise) (ev : Event) :
    (step s ev).onError = s.onError := by
  cases ev with
  | cancel r => exact (sameAttempts_cancelToken r s).2.2.1
  | attemptOk v =>
    simp only [step]
    split
    · rfl
    · cases ho : s.outcome <;> simp [onResolved, settle, ho]
  | timerFire =>
    simp only [step]
    split
    · rfl
    · exact (runOnce_errors _).2.2
  | attemptFail e =>
    simp only [step]
    split
    · rfl
    · exact onRejected_onError e _

theorem step_errors (s : RetryablePromise) (ev : Event) :
    (step s ev).errors = s.errors ++ failuresOf s [ev] ∧
    (step s ev).onErrorCalls =
      s.onErrorCalls ++ (if s.onError then failuresOf s [ev] else []) := by
  cases ev with
  | cancel r =>
    obtain ⟨_, _, _, f4, _, _, _, _, f9⟩ := sameAttempts_cancelToken r s
    simp only [step, failuresOf, List.append_nil, ite_self]
    exact ⟨f4, f9⟩
  | attemptOk v =>
    simp only [step, failuresOf, List.append_nil, ite_self]
    split
    · exact ⟨rfl, rfl⟩
    · cases ho : s.outcome <;> simp [onResolved, settle, ho]
  | timerFire =>
    simp only [step, failuresOf, List.append_nil, ite_self]
    split
    · exact ⟨rfl, rfl⟩
    · exact ⟨(runOnce_errors _).1, (runOnce_errors _).2.1⟩
  | attemptFail e =>
    simp only [step, failuresOf, List.append_nil]
    split
    · simp
    · rw [(onRejected_errors e _).1, (onRejected_errors e _).2]
      constructor
      · rfl
      · show (if s.onError = true then _ else _) = _
        split <;> simp

theorem steps_errors (evs : List Event) :
    ∀ s : RetryablePromise,
      (steps s evs).errors = s.errors ++ failuresOf s evs ∧
      (steps s evs).onErrorCalls =
        s.onErrorCalls ++ (if s.onError then failuresOf s evs else []) := by
  induction evs with
  | nil => intro s; simp [steps, failuresOf]
  | cons ev evs ih =>
    intro s
    obtain ⟨h1, h2⟩ := ih (step s ev)
    obtain ⟨g1, g2⟩ := step_errors s ev
    have hs : steps s (ev :: evs) = steps (step s ev) evs := rfl
    rw [hs, h1, h2, g1, g2, step_onError, failuresOf_cons s ev evs]
    constructor
    · simp
    · split <;> simp

theorem launch_errors (options : Option Options) (token : Option CancellationToken) :
    (launch options token).errors = [] ∧ (launch options token).onErrorCalls = [] ∧
      (launch options token).onError = onErrorOf options := by
  simp only [launch]
  rw [(run_errors _).1, (run_errors _).2, run_onError]
  exact ⟨rfl, rfl, rfl⟩

/-! ## Lemmas on runs with and without `onError` -/

theorem withoutOnError_settle (o : Outcome) (s : RetryablePromise) :
    withoutOnError (settle o s) = settle o (withoutOnError s) := by
  cases ho : s.outcome <;> simp [withoutOnError, settle, ho]

theorem withoutOnError_stop (r : Reason) (s : RetryablePromise) :
    withoutOnError (stop r s) = stop r (withoutOnError s) := by
  simp only [stop]
  rw [withoutOnError_settle]
  rfl

theorem withoutOnError_runOnce (s : RetryablePromise) :
    withoutOnError (runOnce s) = runOnce (withoutOnError s) := by
  simp only [runOnce, withoutOnError]
  split <;> rfl

theorem withoutOnError_run (s : RetryablePromise) :
    withoutOnError (run s) = run (withoutOnError s) := by
  simp only [run]
  split
  · rename_i h
    have h2 : (!(withoutOnError s).isStarted) = true := h
    rw [if_pos h2]
    simp only [start]
    rw [withoutOnError_runOnce]
    cases ht : s.cancellationToken <;> simp [withoutOnError, ht]
  · rename_i h
    have h2 : ¬ ((!(withoutOnError s).isStarted) = true) := h
    rw [if_neg h2]
    split
    · rename_i h3
      have h4 : (withoutOnError s).currentRetry ≥ (withoutOnError s).maxTries := h3
      rw [if_pos h4]
      exact withoutOnError_stop _ s
    · rename_i h3
      have h4 : ¬ (withoutOnError s).currentRetry ≥ (withoutOnError s).maxTries := h3
      rw [if_neg h4]
      split
      · rename_i h5
        have h6 : (withoutOnError s).delay ≥ 0 := h5
        rw [if_pos h6]
        rfl
      · rename_i h5
        have h6 : ¬ (withoutOnError s).delay ≥ 0 := h5
        rw [if_neg h6]
        exact withoutOnError_runOnce s

theorem withoutOnError_onRejected (e : Err) (s : RetryablePromise) :
    withoutOnError (onRejected e s) = onRejected e (withoutOnError s) := by
  simp only [onRejected, onRejectedWith, id_eq, ite_self]
  cases he : e.nonResumable
  · simp only [Bool.false_eq_true, if_false]
    rw [withoutOnError_run]
    cases hoe : s.onError <;> simp [withoutOnError, hoe]
  · simp only [if_true]
    rw [withoutOnError_stop]
    cases hoe : s.onError <;> simp [withoutOnError, hoe]

theorem withoutOnError_deliver (c : Listener × String) (s : RetryablePromise) :
    withoutOnError (deliver s c) = deliver (withoutOnError s) c := by
  obtain ⟨l, r⟩ := c
  cases l with
  | retryStop => exact withoutOnError_stop _ s
  | other id => rfl

theorem withoutOnError_foldl (calls : List (Listener × String)) :
    ∀ s : RetryablePromise,
      withoutOnError (calls.foldl deliver s) = calls.foldl deliver (withoutOnError s) := by
  induction calls with
  | nil => intro s; rfl
  | cons c cs ih =>
    intro s
    simp only [List.foldl_cons]
    rw [ih, withoutOnError_deliver]

theorem withoutOnError_step (s : RetryablePromise) (ev : Event) :
    withoutOnError (step s ev) = step (withoutOnError s) ev := by
  cases ev with
  | cancel r =>
    simp only [step, cancelToken]
    cases ht : s.cancellationToken with
    | none => simp [withoutOnError, ht]
    | some t =>
      have ht2 : (withoutOnError s).cancellationToken = some t := ht
      simp only [ht2]
      rw [withoutOnError_foldl]
      rfl
  | attemptOk v =>
    simp only [step]
    by_cases h : s.inFlight = 0
    · have h2 : (withoutOnError s).inFlight = 0 := h
      rw [if_pos h, if_pos h2]
    · have h2 : ¬ (withoutOnError s).inFlight = 0 := h
      rw [if_neg h, if_neg h2]
      exact withoutOnError_settle _ _
  | timerFire =>
    simp only [step]
    by_cases h : s.timers = 0
    · have h2 : (withoutOnError s).timers = 0 := h
      rw [if_pos h, if_pos h2]
    · have h2 : ¬ (withoutOnError s).timers = 0 := h
      rw [if_neg h, if_neg h2]
      exact withoutOnError_runOnce _
  | attemptFail e =>
    simp only [step]
    by_cases h : s.inFlight = 0
    · have h2 : (withoutOnError s).inFlight = 0 := h
      rw [if_pos h, if_pos h2]
    · have h2 : ¬ (withoutOnError s).inFlight = 0 := h
      rw [if_neg h, if_neg h2]
      exact withoutOnError_onRejected e _

theorem withoutOnError_steps (evs : List Event) :
    ∀ s : RetryablePromise, withoutOnError (steps s evs) = steps (withoutOnError s) evs := by
  induction evs with
  | nil => intro s; rfl
  | cons ev evs ih =>
    intro s
    show withoutOnError (steps (step s ev) evs) = steps (step (withoutOnError s) ev) evs
    rw [ih, withoutOnError_step]

theorem withoutOnError_launch (maxTries : Option Nat) (delay : Option Int)
    (token : Option CancellationToken) :
    withoutOnError (launch (some { maxTries := maxTries, delay := delay, onError := true }) token) =
      launch (some { maxTries := maxTries, delay := delay, onError := false }) token := by
  simp only [launch]
  rw [withoutOnError_run]
  rfl

/-! ## Lemmas on the attempt counter -/

theorem maxTriesOf_pos (options : Option Options) : 1 ≤ maxTriesOf options := by
  unfold maxTriesOf
  split
  · split <;> omega
  · omega

theorem runOnce_config (s : RetryablePromise) :
    (runOnce s).maxTries = s.maxTries ∧ (runOnce s).delay = s.delay := by
  simp only [runOnce]
  split <;> exact ⟨rfl, rfl⟩

theorem run_config (s : RetryablePromise) :
    (run s).maxTries = s.maxTries ∧ (run s).delay = s.delay := by
  simp only [run]
  split
  · simp only [start]
    rw [(runOnce_config _).1, (runOnce_config _).2]
    split <;> exact ⟨rfl, rfl⟩
  · split
    · exact ⟨(sameAttempts_stop _ s).1, (sameAttempts_stop _ s).2.1⟩
    · split
      · exact ⟨rfl, rfl⟩
      · exact runOnce_config s

theorem onRejected_config (e : Err) (s : RetryablePromise) :
    (onRejected e s).maxTries = s.maxTries ∧ (onRejected e s).delay = s.delay := by
  simp only [onRejected, onRejectedWith, id_eq, ite_self]
  split
  · rw [(sameAttempts_stop _ _).1, (sameAttempts_stop _ _).2.1]
    split <;> exact ⟨rfl, rfl⟩
  · rw [(run_config _).1, (run_config _).2]
    split <;> exact ⟨rfl, rfl⟩

theorem step_config (s : RetryablePromise) (ev : Event) :
    (step s ev).maxTries = s.maxTries ∧ (step s ev).delay = s.delay := by
  cases ev with
  | cancel r => exact ⟨(sameAttempts_cancelToken r s).1, (sameAttempts_cancelToken r s).2.1⟩
  | attemptOk v =>
    simp only [step]
    split
    · exact ⟨rfl, rfl⟩
    · cases ho : s.outcome <;> simp [onResolved, settle, ho]
  | timerFire =>
    simp only [step]
    split
    · exact ⟨rfl, rfl⟩
    · exact runOnce_config _
  | attemptFail e =>
    simp only [step]
    split
    · exact ⟨rfl, rfl⟩
    · exact onRejected_config e _

theorem steps_config (evs : List Event) :
    ∀ s : RetryablePromise,
      (steps s evs).maxTries = s.maxTries ∧ (steps s evs).delay = s.delay := by
  induction evs with
  | nil => intro s; exact ⟨rfl, rfl⟩
  | cons ev evs ih =>
    intro s
    show (steps (step s ev) evs).maxTries = _ ∧ (steps (step s ev) evs).delay = _
    rw [(ih _).1, (ih _).2]
    exact step_config s ev

theorem launch_config (options : Option Options) (token : Option CancellationToken) :
    (launch options token).maxTries = maxTriesOf options ∧
      (launch options token).delay = delayOf options := by
  simp only [launch]
  rw [(run_config _).1, (run_config _).2]
  exact ⟨rfl, rfl⟩

theorem bounded_stop (r : Reason) {s : RetryablePromise} (h : Bounded s) :
    Bounded (stop r s) := by
  obtain ⟨_, h2⟩ := h
  cases ho : s.outcome <;> simp [Bounded, stop, settle, ho, h2]

theorem bounded_runOnce {s : RetryablePromise} (h : Bounded s) : Bounded (runOnce s) := by
  obtain ⟨h1, h2⟩ := h
  simp only [runOnce]
  split <;> constructor <;> simp <;> omega

theorem bounded_run {s : RetryablePromise} (hs : s.isStarted = true) (h : Bounded s) :
    Bounded (run s) := by
  simp only [run, hs, Bool.not_true, Bool.false_eq_true, if_false]
  split
  · exact bounded_stop _ h
  · split
    · exact h
    · exact bounded_runOnce h

theorem bounded_onRejected (e : Err) {s : RetryablePromise} (hs : s.isStarted = true)
    (h : Bounded s) : Bounded (onRejected e s) := by
  simp only [onRejected, onRejectedWith, id_eq, ite_self]
  split
  · apply bounded_stop
    split <;> exact h
  · apply bounded_run
    · split <;> exact hs
    · split <;> exact h

theorem bounded_foldl (calls : List (Listener × String)) :
    ∀ s : RetryablePromise, Bounded s → Bounded (calls.foldl deliver s) := by
  induction calls with
  | nil => intro s h; exact h
  | cons c cs ih =>
    intro s h
    obtain ⟨l, r⟩ := c
    cases l with
    | retryStop => exact ih _ (bounded_stop _ h)
    | other id => exact ih _ h

theorem bounded_step {s : RetryablePromise} (ev : Event) (hs : s.isStarted = true)
    (h : Bounded s) : Bounded (step s ev) := by
  cases ev with
  | cancel r =>
    simp only [step, cancelToken]
    split
    · exact h
    · exact bounded_foldl _ _ h
  | attemptOk v =>
    simp only [step]
    split
    · exact h
    · cases ho : s.outcome <;> simpa [Bounded, onResolved, settle, ho] using h
  | timerFire =>
    simp only [step]
    split
    · exact h
    · exact bounded_runOnce h
  | attemptFail e =>
    simp only [step]
    split
    · exact h
    · exact bounded_onRejected e hs h

theorem bounded_steps (evs : List Event) :
    ∀ {s : RetryablePromise}, Inv s → Bounded s → Bounded (steps s evs) := by
  induction evs with
  | nil => intro s _ h; exact h
  | cons ev evs ih => intro s hi h; exact ih (inv_step ev hi) (bounded_step ev hi.started h)

theorem launch_counts (options : Option Options) (token : Option CancellationToken) :
    (launch options token).invocations = 1 ∧ (launch options token).currentRetry = 1 ∧
      (launch options token).inFlight = 1 := by
  obtain ⟨s0, h0, a, _⟩ := newRetryablePromise_ok options token
  rw [launch_eq] at h0
  cases h0
  exact ⟨a.calls, a.retry, a.flight⟩

theorem bounded_launch (options : Option Options) (token : Option CancellationToken) :
    Bounded (launch options token) := by
  obtain ⟨h1, h2, _⟩ := launch_counts options token
  have h3 := (launch_config options token).1
  have h4 := maxTriesOf_pos options
  constructor <;> omega

theorem stop_timers (r : Reason) (s : RetryablePromise) :
    (stop r s).timers = s.timers :=
  (sameAttempts_stop r s).2.2.2.2.2.2.2.1

/-- What a turn that calls the factory looks like: it is the failure handler
of the attempt in flight running without delay, or the delay timer firing
with no attempt in flight. -/
theorem step_invokes {s : RetryablePromise} (h : Inv s) (ev : Event) :
    (step s ev).invocations = s.invocations ∨
    ((step s ev).invocations = s.invocations + 1 ∧
      (step s ev).currentRetry ≤ (step s ev).maxTries ∧
      (step s ev).inFlight = 1 ∧
      ((∃ e, ev = .attemptFail e ∧ e.nonResumable = false ∧ s.inFlight = 1 ∧
          s.timers = 0 ∧ s.delay < 0) ∨
        (ev = .timerFire ∧ s.timers = 1 ∧ s.inFlight = 0))) := by
  obtain ⟨h1, h2, h3⟩ := h
  cases ev with
  | cancel r => exact Or.inl (sameAttempts_cancelToken r s).2.2.2.2.2.1
  | attemptOk v =>
    left
    simp only [step]
    split
    · rfl
    · cases ho : s.outcome <;> simp [onResolved, settle, ho]
  | timerFire =>
    by_cases ht : s.timers = 0
    · left; simp [step, ht]
    · have ht1 : s.timers = 1 := by omega
      have hf0 : s.inFlight = 0 := by omega
      by_cases hlt : s.currentRetry + 1 ≤ s.maxTries
      · right
        simp [step, runOnce, ht1, hlt, hf0]
      · left
        simp [step, runOnce, ht1, hlt]
  | attemptFail e =>
    by_cases hf : s.inFlight = 0
    · left; simp [step, hf]
    · have hf1 : s.inFlight = 1 := by omega
      have ht0 : s.timers = 0 := by omega
      cases he : e.nonResumable
      · by_cases hlt : s.currentRetry < s.maxTries
        · by_cases hd : s.delay ≥ 0
          · left
            rw [step_fail_timer h1 hf1 hlt he hd]
          · right
            rw [step_fail_direct h1 hf1 hlt he hd]
            refine ⟨rfl, ?_, rfl, Or.inl ⟨e, rfl, he, hf1, ht0, by omega⟩⟩
            show s.currentRetry + 1 ≤ s.maxTries
            omega
        · left
          have hge : s.maxTries ≤ s.currentRetry := by omega
          cases hoe : s.onError <;>
            simp [step, hf, onRejected, onRejectedWith, he, run, h1, hge, hoe, stop_invocations]
      · left
        cases hoe : s.onError <;> simp [step, hf, onRejected, onRejectedWith, he, hoe, stop_invocations]

/-- A delay timer is only ever scheduled by the failure handler of the attempt
in flight. -/
theorem step_timers {s : RetryablePromise} (h : Inv s) (ev : Event) :
    (step s ev).timers ≤ s.timers ∨
    (∃ e, ev = .attemptFail e ∧ e.nonResumable = false ∧ s.inFlight = 1 ∧ 0 ≤ s.delay ∧
      (step s ev).timers = 1 ∧ (step s ev).inFlight = 0) := by
  have hi := inv_step ev h
  obtain ⟨h1, h2, h3⟩ := h
  cases ev with
  | cancel r => exact Or.inl (le_of_eq (sameAttempts_cancelToken r s).2.2.2.2.2.2.2.1)
  | attemptOk v =>
    left
    simp only [step]
    split
    · exact le_refl _
    · cases ho : s.outcome <;> simp [onResolved, settle, ho]
  | timerFire =>
    left
    simp only [step]
    split
    · exact le_refl _
    · simp only [runOnce]
      split <;> simp
  | attemptFail e =>
    by_cases hf : s.inFlight = 0
    · left; simp [step, hf]
    · have hf1 : s.inFlight = 1 := by omega
      have ht0 : s.timers = 0 := by omega
      cases he : e.nonResumable
      · by_cases hlt : s.currentRetry < s.maxTries
        · by_cases hd : s.delay ≥ 0
          · right
            refine ⟨e, rfl, he, hf1, hd, ?_, ?_⟩ <;>
              simp [step_fail_timer h1 hf1 hlt he hd, ht0]
          · left
            rw [step_fail_direct h1 hf1 hlt he hd]
        · left
          have hge : s.maxTries ≤ s.currentRetry := by omega
          cases hoe : s.onError <;>
            simp [step, hf, onRejected, onRejectedWith, he, run, h1, hge, hoe, stop_timers, ht0]
      · left
        cases hoe : s.onError <;> simp [step, hf, onRejected, onRejectedWith, he, hoe, stop_timers, ht0]

/-! ## Lemmas on runs whose `onError` callback modifies the error -/

theorem stepWith_id (s : RetryablePromise) (ev : Event) : stepWith id s ev = step s ev := by
  cases ev <;> rfl

theorem stepsWith_id (evs : List Event) :
    ∀ s : RetryablePromise, stepsWith id s evs = steps s evs := by
  induction evs with
  | nil => intro s; rfl
  | cons ev evs ih =>
    intro s
    show stepsWith id (stepWith id s ev) evs = steps (step s ev) evs
    rw [stepWith_id, ih]

theorem onRejectedWith_unconfigured (effect : Err → Err) (e : Err) {s : RetryablePromise}
    (h : s.onError = false) : onRejectedWith effect e s = onRejected e s := by
  simp [onRejected, onRejectedWith, h]

theorem stepWith_unconfigured (effect : Err → Err) {s : RetryablePromise} (ev : Event)
    (h : s.onError = false) : stepWith effect s ev = step s ev := by
  cases ev with
  | attemptFail e =>
    simp only [stepWith, step]
    split
    · rfl
    · exact onRejectedWith_unconfigured effect e h
  | attemptOk v => rfl
  | timerFire => rfl
  | cancel r => rfl

theorem stepsWith_unconfigured (effect : Err → Err) (evs : List Event) :
    ∀ {s : RetryablePromise}, s.onError = false → stepsWith effect s evs = steps s evs := by
  induction evs with
  | nil => intro s _; rfl
  | cons ev evs ih =>
    intro s h
    show stepsWith effect (stepWith effect s ev) evs = steps (step s ev) evs
    rw [stepWith_unconfigured effect ev h]
    exact ih (by rw [step_onError]; exact h)

theorem onRejectedWith_calls (effect : Err → Err) (e : Err) (s : RetryablePromise) :
    (onRejectedWith effect e s).onErrorCalls =
      (if s.onError then s.onErrorCalls ++ [e] else s.onErrorCalls) ∧
    (onRejectedWith effect e s).onError = s.onError := by
  cases hoe : s.onError <;>
    simp only [onRejectedWith, hoe, Bool.false_eq_true, if_false, if_true] <;>
    split
  · rw [(sameAttempts_stop _ _).2.2.2.2.2.2.2.2, (sameAttempts_stop _ _).2.2.1]
    exact ⟨rfl, rfl⟩
  · rw [(run_errors _).2, run_onError]
    exact ⟨rfl, rfl⟩
  · rw [(sameAttempts_stop _ _).2.2.2.2.2.2.2.2, (sameAttempts_stop _ _).2.2.1]
    exact ⟨rfl, rfl⟩
  · rw [(run_errors _).2, run_onError]
    exact ⟨rfl, rfl⟩

theorem failuresOfWith_cons (effect : Err → Err) (s : RetryablePromise) (ev : Event)
    (evs : List Event) :
    failuresOfWith effect s (ev :: evs) =
      failuresOfWith effect s [ev] ++ failuresOfWith effect (stepWith effect s ev) evs := by
  cases ev <;> simp [failuresOfWith]

theorem stepWith_calls (effect : Err → Err) (s : RetryablePromise) (ev : Event) :
    (stepWith effect s ev).onErrorCalls =
      s.onErrorCalls ++ (if s.onError then failuresOfWith effect s [ev] else []) ∧
    (stepWith effect s ev).onError = s.onError := by
  cases ev with
  | attemptFail e =>
    simp only [stepWith, failuresOfWith, List.append_nil]
    split
    · simp
    · rw [(onRejectedWith_calls effect e _).1, (onRejectedWith_calls effect e _).2]
      constructor
      · show (if s.onError = true then _ else _) = _
        split <;> simp
      · rfl
  | attemptOk v =>
    have h := (step_errors s (.attemptOk v)).2
    exact ⟨h, step_onError s (.attemptOk v)⟩
  | timerFire =>
    have h := (step_errors s .timerFire).2
    exact ⟨h, step_onError s .timerFire⟩
  | cancel r =>
    have h := (step_errors s (.cancel r)).2
    exact ⟨h, step_onError s (.cancel r)⟩

theorem stepsWith_calls (effect : Err → Err) (evs : List Event) :
    ∀ s : RetryablePromise,
      (stepsWith effect s evs).onErrorCalls =
        s.onErrorCalls ++ (if s.onError then failuresOfWith effect s evs else []) := by
  induction evs with
  | nil => intro s; simp [stepsWith, failuresOfWith]
  | cons ev evs ih =>
    intro s
    have hs : stepsWith effect s (ev :: evs) = stepsWith effect (stepWith effect s ev) evs := rfl
    rw [hs, ih, (stepWith_calls effect s ev).1, (stepWith_calls effect s ev).2,
      failuresOfWith_cons effect s ev evs]
    split <;> simp

/-! ## Configuration, accumulation and sequencing -/

/-- C13 at its failing input `delay: 0` with `maxTries: 2`: the stored delay
is `-1`, and the failure handler of the first attempt starts the second
attempt itself, with no timer scheduled. -/
theorem delay_zero_starts_without_timer :
    (launch (some { maxTries := some 2, delay := some 0, onError := false }) none).delay = -1 ∧
    (step (launch (some { maxTries := some 2, delay := some 0, onError := false }) none)
        (.attemptFail { message := "e", resumable := none })).timers = 0 ∧
    (step (launch (some { maxTries := some 2, delay := some 0, onError := false }) none)
        (.attemptFail { message := "e", resumable := none })).invocations = 2 ∧
    (step (launch (some { maxTries := some 2, delay := some 0, onError := false }) none)
        (.attemptFail { message := "e", resumable := none })).inFlight = 1 := by
  decide

/-- C14 (P6, error accumulation): in every state a constructed controller
reaches, under any interleaving of events, the `errors` array carried by the
aggregate failure is the sequence of the errors of the attempts that have
failed so far, in attempt order; in particular this holds at the turn that
rejects the promise, and the length is the number of failed attempts. -/
theorem error_accumulation (options : Option Options) (token : Option CancellationToken)
    (evs : List Event) :
    deliveredErrors (steps (launch options token) evs) =
      failuresOf (launch options token) evs ∧
    (deliveredErrors (steps (launch options token) evs)).length =
      (failuresOf (launch options token) evs).length := by
  have h := (steps_errors evs (launch options token)).1
  rw [(launch_errors options token).1, List.nil_append] at h
  exact ⟨h, by rw [deliveredErrors, h]⟩

/-- C15 (`maxTries` configuration): `options.maxTries = n ≥ 1` makes the
attempt limit `n` in every reachable state; with `options` or
`options.maxTries` omitted the limit is 3, and then a factory whose first
three attempts fail resumably is called exactly 3 times. -/
theorem maxTries_configuration (n : Nat) (hn : 1 ≤ n) (delay : Option Int) (onError : Bool)
    (token : Option CancellationToken) (evs : List Event) (factory : Factory)
    (hfail : ∀ k, 1 ≤ k → k ≤ 3 → failsResumably factory k) :
    (steps (launch (some { maxTries := some n, delay := delay, onError := onError }) token)
      evs).maxTries = n ∧
    (steps (launch none token) evs).maxTries = 3 ∧
    (steps (launch (some { maxTries := none, delay := delay, onError := onError }) token)
      evs).maxTries = 3 ∧
    ∀ fuel, 6 ≤ fuel →
      (drive factory fuel (launch none token)).invocations = 3 ∧
      (drive factory fuel
        (launch (some { maxTries := none, delay := delay, onError := onError }) token)).invocations
        = 3 := by
  refine ⟨?_, ?_, ?_, fun fuel hfuel => ⟨?_, ?_⟩⟩
  · rw [(steps_config evs _).1, (launch_config _ _).1]
    exact maxTriesOf_some n hn delay onError
  · rw [(steps_config evs _).1, (launch_config _ _).1]
    rfl
  · rw [(steps_config evs _).1, (launch_config _ _).1]
    rfl
  · obtain ⟨s0, h0, hrun⟩ := @run_exhausted factory 3 none token rfl hfail
    rw [launch_eq] at h0
    cases h0
    exact (hrun fuel (by omega)).1
  · obtain ⟨s0, h0, hrun⟩ := @run_exhausted factory 3
      (some { maxTries := none, delay := delay, onError := onError }) token rfl hfail
    rw [launch_eq] at h0
    cases h0
    exact (hrun fuel (by omega)).1

/-- C15 at `maxTries = 5`, and the default with a factory that always fails
resumably. -/
theorem maxTries_configuration_witness :
    (1 ≤ 5 ∧ ∀ k, 1 ≤ k → k ≤ 3 →
      failsResumably (fun _ => AttemptResult.fail { message := "e", resumable := none }) k) ∧
    (steps (launch (some { maxTries := some 5, delay := none, onError := false }) none)
      []).maxTries = 5 ∧
    (steps (launch none none) []).maxTries = 3 ∧
    (steps (launch (some { maxTries := none, delay := none, onError := false }) none)
      []).maxTries = 3 ∧
    ∀ fuel, 6 ≤ fuel →
      (drive (fun _ => AttemptResult.fail { message := "e", resumable := none }) fuel
        (launch none none)).invocations = 3 ∧
      (drive (fun _ => AttemptResult.fail { message := "e", resumable := none }) fuel
        (launch (some { maxTries := none, delay := none, onError := false }) none)).invocations
        = 3 :=
  ⟨⟨by decide, fun _ _ _ => ⟨_, rfl, rfl⟩⟩,
   maxTries_configuration 5 (by decide) none false none [] _ (fun _ _ _ => ⟨_, rfl, rfl⟩)⟩

/-- C16 (missing factory): without a factory the constructor throws
`"missing promiseFactory"` whatever the options and the token, and at that
point the token is as the caller passed it (no listener registered) and no
factory call has been made. With a factory the same call does register the
listener on the token and makes one factory call, so these effects lie past
the check. -/
theorem missing_factory (options : Option Options) (token : Option CancellationToken)
    (t : CancellationToken) :
    (construct false options token).result = .error "missing promiseFactory" ∧
    (construct false options token).token = token ∧
    (construct false options token).factoryCalls = 0 ∧
    newRetryablePromise false options token = .error "missing promiseFactory" ∧
    (construct true options (some t)).token =
      some { cancelled := t.cancelled, listeners := t.listeners ++ [.retryStop] } ∧
    (construct true options token).factoryCalls = 1 := by
  refine ⟨rfl, rfl, rfl, rfl, ?_, (launch_counts options token).1⟩
  show (launch options (some t)).cancellationToken = _
  simp only [launch, run, initial, start, Bool.not_false, if_true]
  rw [runOnce_token]
  rfl

/-- C17 (attempt bound under every interleaving): for a controller built with
any options (so `maxTries ≥ 1`) and any token, after any sequence of events
the limit is the configured one and the factory has been called at most
`maxTries` times; the call made at construction and every turn that calls the
factory leave `currentRetry ≤ maxTries`, and a turn calls it at most once. -/
theorem attempt_bound (options : Option Options) (token : Option CancellationToken)
    (evs : List Event) (ev : Event) :
    1 ≤ maxTriesOf options ∧
    (steps (launch options token) evs).maxTries = maxTriesOf options ∧
    (steps (launch options token) evs).invocations ≤ maxTriesOf options ∧
    ((launch options token).invocations = 1 ∧
      (launch options token).currentRetry ≤ (launch options token).maxTries) ∧
    ((step (steps (launch options token) evs) ev).invocations =
        (steps (launch options token) evs).invocations ∨
      ((step (steps (launch options token) evs) ev).invocations =
          (steps (launch options token) evs).invocations + 1 ∧
        (step (steps (launch options token) evs) ev).currentRetry ≤
          (step (steps (launch options token) evs) ev).maxTries)) := by
  have hcfg : (steps (launch options token) evs).maxTries = maxTriesOf options := by
    rw [(steps_config evs _).1, (launch_config _ _).1]
  have hb := bounded_steps evs (inv_launch options token) (bounded_launch options token)
  obtain ⟨c1, c2, _⟩ := launch_counts options token
  refine ⟨maxTriesOf_pos options, hcfg, ?_, ⟨c1, ?_⟩, ?_⟩
  · rw [← hcfg]; exact hb.2
  · rw [c2, (launch_config _ _).1]; exact maxTriesOf_pos options
  · rcases step_invokes (inv_steps evs (inv_launch options token)) ev with h | h
    · exact Or.inl h
    · exact Or.inr ⟨h.1, h.2.1⟩

/-- C18 (strictly sequential attempts): in every reachable state at most one
attempt is in flight, and never together with a pending delay timer. A turn
that calls the factory is either the failure handler of the attempt in flight
(no delay configured) or the firing of the delay timer with no attempt in
flight; and a delay timer is only scheduled by the failure handler of the
attempt in flight. -/
theorem sequential_attempts (options : Option Options) (token : Option CancellationToken)
    (evs : List Event) (ev : Event) :
    (steps (launch options token) evs).inFlight + (steps (launch options token) evs).timers ≤ 1 ∧
    ((step (steps (launch options token) evs) ev).invocations =
        (steps (launch options token) evs).invocations ∨
      ((step (steps (launch options token) evs) ev).invocations =
          (steps (launch options token) evs).invocations + 1 ∧
        (step (steps (launch options token) evs) ev).inFlight = 1 ∧
        ((∃ e, ev = .attemptFail e ∧ e.nonResumable = false ∧
            (steps (launch options token) evs).inFlight = 1 ∧
            (steps (launch options token) evs).timers = 0 ∧
            (steps (launch options token) evs).delay < 0) ∨
          (ev = .timerFire ∧ (steps (launch options token) evs).timers = 1 ∧
            (steps (launch options token) evs).inFlight = 0)))) ∧
    ((step (steps (launch options token) evs) ev).timers ≤
        (steps (launch options token) evs).timers ∨
      ∃ e, ev = .attemptFail e ∧ e.nonResumable = false ∧
        (steps (launch options token) evs).inFlight = 1 ∧
        0 ≤ (steps (launch options token) evs).delay ∧
        (step (steps (launch options token) evs) ev).timers = 1 ∧
        (step (steps (launch options token) evs) ev).inFlight = 0) := by
  have hinv := inv_steps evs (inv_launch options token)
  refine ⟨hinv.single, ?_, step_timers hinv ev⟩
  rcases step_invokes hinv ev with h | h
  · exact Or.inl h
  · exact Or.inr ⟨h.1, h.2.2.1, h.2.2.2⟩

/-- C19, as stated, fails: with `maxTries = 3` and attempts that fail
resumably, a non-throwing `onError` callback that sets `resumable = false` on
the error it receives ends the run after one factory call, rejected with that
error as reason, while the same events without the callback give three calls
and reason `"max tries"`. -/
theorem onError_no_control_flow_counterexample :
    (stepsWith (fun e => { e with resumable := some false })
        (launch (some { maxTries := some 3, delay := none, onError := true }) none)
        [.attemptFail { message := "e", resumable := none },
         .attemptFail { message := "e", resumable := none },
         .attemptFail { message := "e", resumable := none }]).invocations = 1 ∧
    (stepsWith (fun e => { e with resumable := some false })
        (launch (some { maxTries := some 3, delay := none, onError := true }) none)
        [.attemptFail { message := "e", resumable := none },
         .attemptFail { message := "e", resumable := none },
         .attemptFail { message := "e", resumable := none }]).outcome =
      some (.rejected { name := "RetryException",
                        reason := .err { message := "e", resumable := some false } }) ∧
    (stepsWith (fun e => { e with resumable := some false })
        (launch (some { maxTries := some 3, delay := none, onError := false }) none)
        [.attemptFail { message := "e", resumable := none },
         .attemptFail { message := "e", resumable := none },
         .attemptFail { message := "e", resumable := none }]).invocations = 3 ∧
    (stepsWith (fun e => { e with resumable := some false })
        (launch (some { maxTries := some 3, delay := none, onError := false }) none)
        [.attemptFail { message := "e", resumable := none },
         .attemptFail { message := "e", resumable := none },
         .attemptFail { message := "e", resumable := none }]).outcome =
      some (.rejected { name := "RetryException", reason := .str "max tries" }) := by
  decide

/-- C19, amended (`onError` and control flow): two controllers built with the
same `maxTries`, `delay` and token, one with an `onError` callback that leaves
the error object it receives unchanged (and does not cancel the token) and one
without a callback, fed the same events, are in the same state up to the `onError` option and the record
of its calls: same number of factory calls, same outcome. Whatever the
callback does to the error, its calls are exactly the errors of the failed
attempts as the attempts produced them, once each, in attempt order; without
a callback there are none. -/
theorem onError_no_control_flow (maxTries : Option Nat) (delay : Option Int)
    (token : Option CancellationToken) (evs : List Event) (effect : Err → Err)
    (hkeeps : ∀ e, effect e = e) :
    withoutOnError
        (stepsWith effect
          (launch (some { maxTries := maxTries, delay := delay, onError := true }) token) evs) =
      stepsWith effect
        (launch (some { maxTries := maxTries, delay := delay, onError := false }) token) evs ∧
    (stepsWith effect
        (launch (some { maxTries := maxTries, delay := delay, onError := true }) token)
        evs).invocations =
      (stepsWith effect
        (launch (some { maxTries := maxTries, delay := delay, onError := false }) token)
        evs).invocations ∧
    (stepsWith effect
        (launch (some { maxTries := maxTries, delay := delay, onError := true }) token)
        evs).outcome =
      (stepsWith effect
        (launch (some { maxTries := maxTries, delay := delay, onError := false }) token)
        evs).outcome ∧
    (∀ anyEffect : Err → Err,
      (stepsWith anyEffect
          (launch (some { maxTries := maxTries, delay := delay, onError := true }) token)
          evs).onErrorCalls =
        failuresOfWith anyEffect
          (launch (some { maxTries := maxTries, delay := delay, onError := true }) token) evs) ∧
    (stepsWith effect
        (launch (some { maxTries := maxTries, delay := delay, onError := false }) token)
        evs).onErrorCalls = [] := by
  have hid : effect = id := funext hkeeps
  subst hid
  rw [stepsWith_id, stepsWith_id]
  have heq := withoutOnError_steps evs
    (launch (some { maxTries := maxTries, delay := delay, onError := true }) token)
  rw [withoutOnError_launch] at heq
  refine ⟨heq, ?_, ?_, fun anyEffect => ?_, ?_⟩
  · rw [← heq]; rfl
  · rw [← heq]; rfl
  · have hcalls := stepsWith_calls anyEffect evs
      (launch (some { maxTries := maxTries, delay := delay, onError := true }) token)
    rw [(launch_errors _ token).2.1, (launch_errors _ token).2.2, List.nil_append] at hcalls
    rw [hcalls]; rfl
  · rw [← heq]; rfl

/-- C19 amended, for a callback that only observes, over three failures with
`maxTries = 2`. -/
theorem onError_no_control_flow_witness :
    (∀ e : Err, id e = e) ∧
    (stepsWith id
        (launch (some { maxTries := some 2, delay := none, onError := true }) none)
        [.attemptFail { message := "a", resumable := none },
         .attemptFail { message := "b", resumable := none },
         .attemptFail { message := "c", resumable := none }]).invocations =
      (stepsWith id
        (launch (some { maxTries := some 2, delay := none, onError := false }) none)
        [.attemptFail { message := "a", resumable := none },
         .attemptFail { message := "b", resumable := none },
         .attemptFail { message := "c", resumable := none }]).invocations ∧
    (stepsWith id
        (launch (some { maxTries := some 2, delay := none, onError := true }) none)
        [.attemptFail { message := "a", resumable := none },
         .attemptFail { message := "b", resumable := none },
         .attemptFail { message := "c", resumable := none }]).outcome =
      (stepsWith id
        (launch (some { maxTries := some 2, delay := none, onError := false }) none)
        [.attemptFail { message := "a", resumable := none },
         .attemptFail { message := "b", resumable := none },
         .attemptFail { message := "c", resumable := none }]).outcome :=
  ⟨fun _ => rfl,
   (onError_no_control_flow (some 2) none none
      [.attemptFail { message := "a", resumable := none },
       .attemptFail { message := "b", resumable := none },
       .attemptFail { message := "c", resumable := none }] id (fun _ => rfl)).2.1,
   (onError_no_control_flow (some 2) none none
      [.attemptFail { message := "a", resumable := none },
       .attemptFail { message := "b", resumable := none },
       .attemptFail { message := "c", resumable := none }] id (fun _ => rfl)).2.2.1⟩

/-! ## retryFetch -/

theorem validationAccepts_none (jsonData : Json) : validationAccepts none jsonData := by
  intro o cb h
  cases h

/-- C20, as stated, fails: a response with status 200 whose parsed body is
rejected by the configured `validationCallBack` makes the attempt fail with an
error (carrying no `resumable` flag) instead of yielding the parsed body. -/
theorem status_classification_counterexample :
    fetchAttempt (fun text => some (.value text)) (fun _ => none)
        (some { validationCallBack := some (fun _ => false), validationError := "invalid" })
        { status := 200, statusText := "OK", text := "\x7b\x7d" } =
      .error { message := "invalid", resumable := none } ∧
    jsonConverter (fun text => some (.value text)) "\x7b\x7d" = .value "\x7b\x7d" := by
  constructor <;> rfl

/-- C20, amended: for every response, one attempt of `retryFetch`
* with `200 ≤ status < 300` yields the JSON-parsed body (`null` when the body
  is not valid JSON) unless a configured `validationCallBack` returns `false`
  on it, in which case it fails with an error without `resumable` flag;
* with `status ≥ 400` fails with an error whose `resumable` is `false`;
* with any other status fails with an error without `resumable` flag, which
  the test of line 82 lets through to a retry. -/
theorem status_classification (parse : String → Option Json)
    (messageOf : Json → Option String) (fetchOptions : Option FetchOptions)
    (response : Response) :
    (200 ≤ response.status ∧ response.status < 300 →
      (validationAccepts fetchOptions (jsonConverter parse response.text) →
        fetchAttempt parse messageOf fetchOptions response =
          .ok (jsonConverter parse response.text)) ∧
      (¬ validationAccepts fetchOptions (jsonConverter parse response.text) →
        ∃ e, fetchAttempt parse messageOf fetchOptions response = .error e ∧
          e.resumable = none ∧ e.nonResumable = false) ∧
      (parse response.text = none → jsonConverter parse response.text = .null)) ∧
    (400 ≤ response.status →
      ∃ e, fetchAttempt parse messageOf fetchOptions response = .error e ∧
        e.resumable = some false ∧ e.nonResumable = true) ∧
    (response.status < 200 ∨ (300 ≤ response.status ∧ response.status < 400) →
      ∃ e, fetchAttempt parse messageOf fetchOptions response = .error e ∧
        e.resumable = none ∧ e.nonResumable = false) := by
  refine ⟨fun h2xx => ⟨fun hacc => ?_, fun hrej => ?_, fun hp => ?_⟩, fun h4 => ?_, fun ho => ?_⟩
  · simp only [fetchAttempt, h2xx, and_self, if_true]
    cases hfo : fetchOptions with
    | none => rfl
    | some o =>
      cases hcb : o.validationCallBack with
      | none => simp [hcb]
      | some cb =>
        have := hacc o cb hfo hcb
        simp [hcb, this]
  · simp only [fetchAttempt, h2xx, and_self, if_true]
    cases hfo : fetchOptions with
    | none => exact absurd (fun o cb h _ => by rw [hfo] at h; cases h) hrej
    | some o =>
      cases hcb : o.validationCallBack with
      | none =>
        refine absurd (fun o2 cb h h2 => ?_) hrej
        rw [hfo] at h
        cases h
        rw [hcb] at h2
        cases h2
      | some cb =>
        cases hv : cb (jsonConverter parse response.text) with
        | false =>
          exact ⟨{ message := o.validationError, resumable := none }, by simp [hcb, hv],
            rfl, rfl⟩
        | true =>
          refine absurd (fun o2 cb2 h h2 => ?_) hrej
          rw [hfo] at h
          cases h
          rw [hcb] at h2
          cases h2
          exact hv
  · simp [jsonConverter, hp]
  · have hn : ¬ (200 ≤ response.status ∧ response.status < 300) := by omega
    simp only [fetchAttempt, hn, if_false]
    exact ⟨_, rfl, by simp [h4], by simp [Err.nonResumable, h4]⟩
  · have hn : ¬ (200 ≤ response.status ∧ response.status < 300) := by omega
    have hn4 : ¬ (response.status ≥ 400) := by omega
    simp only [fetchAttempt, hn, if_false]
    exact ⟨_, rfl, by simp [hn4], by simp [Err.nonResumable, hn4]⟩

/-- C20 amended, at a 404 response, at a 304 response, and at a 200 response
whose body is not valid JSON. -/
theorem status_classification_witness :
    (400 ≤ 404 ∧
      ∃ e, fetchAttempt (fun _ => none) (fun _ => none) none
          { status := 404, statusText := "Not Found", text := "gone" } = .error e ∧
        e.resumable = some false ∧ e.nonResumable = true) ∧
    ((304 < 200 ∨ (300 ≤ 304 ∧ 304 < 400)) ∧
      ∃ e, fetchAttempt (fun _ => none) (fun _ => none) none
          { status := 304, statusText := "Not Modified", text := "" } = .error e ∧
        e.resumable = none ∧ e.nonResumable = false) ∧
    ((200 ≤ 200 ∧ 200 < 300) ∧ validationAccepts none (jsonConverter (fun _ => none) "oops") ∧
      fetchAttempt (fun _ => none) (fun _ => none) none
          { status := 200, statusText := "OK", text := "oops" } =
        .ok (jsonConverter (fun _ => none) "oops") ∧
      jsonConverter (fun _ => none) "oops" = .null) :=
  ⟨⟨by decide,
    (status_classification (fun _ => none) (fun _ => none) none
      { status := 404, statusText := "Not Found", text := "gone" }).2.1 (by decide)⟩,
   ⟨by decide,
    (status_classification (fun _ => none) (fun _ => none) none
      { status := 304, statusText := "Not Modified", text := "" }).2.2 (by decide)⟩,
   ⟨by decide, validationAccepts_none _,
    ((status_classification (fun _ => none) (fun _ => none) none
      { status := 200, statusText := "OK", text := "oops" }).1 (by decide)).1
        (validationAccepts_none _),
    rfl⟩⟩

end RetryableFetch
